import Mathlib

/-!
RISC-V user-interrupt controller: register decode and send.

A shallow embedding of `hw/intc/riscv_uintc.c` and `include/hw/intc/riscv_uintc.h`.

* C unsigned integers are natural numbers; every place where C truncates
  (a store to a narrower field, a cast, a shift that can leave the type) carries an
  explicit `% 2 ^ w`.
* A value of type `int` is represented by its 32-bit two's complement bit pattern,
  and the conversion to `uint64_t` is the sign extension of that pattern.
* The handlers return the new device state together with the list of externally
  visible events (log lines and `qemu_irq_raise` calls) in program order.
* `qemu_get_cpu` and the result of an `int` shift by 32 or more (not defined by C)
  are parameters, collected in `Host`; every theorem holds for every `Host`.
-/

namespace Uintc

/-! ## Constants of `riscv_uintc.h` -/

/-- Enum constant `RISCV_UINTC_SIZE`. -/
abbrev RISCV_UINTC_SIZE : Nat := 0x4000

/-- Enum constant `RISCV_UINTC_MAX_HARTS`: the number of entries of `uirs`. -/
abbrev RISCV_UINTC_MAX_HARTS : Nat := 512

abbrev UINTC_READ_LOW : Nat := 0x08
abbrev UINTC_READ_HIGH : Nat := 0x10
abbrev UINTC_GET_ACTIVE : Nat := 0x18

abbrev UINTC_SEND : Nat := 0x00
abbrev UINTC_WRITE_LOW : Nat := 0x08
abbrev UINTC_WRITE_HIGH : Nat := 0x10
abbrev UINTC_SET_ACTIVE : Nat := 0x18

/-! ## Data model -/

/-- One entry of the register file (`struct RISCVUintcUIRS`):
`uint16_t mode; uint16_t hartid; uint32_t pending0; uint64_t pending1`. -/
structure RISCVUintcUIRS where
  mode : Nat
  hartid : Nat
  pending0 : Nat
  pending1 : Nat
  deriving DecidableEq, Repr

/-- The fields of `struct RISCVUintcState` the handlers use: `uint32_t hartid_base`,
`uint32_t num_harts` (also the length of the array `soft_irqs`), and the array
`uirs` of `RISCV_UINTC_MAX_HARTS` entries allocated by `riscv_uintc_realize`. -/
structure RISCVUintcState where
  hartid_base : Nat
  num_harts : Nat
  uirs : Fin RISCV_UINTC_MAX_HARTS → RISCVUintcUIRS

/-- What the handler looks at in a `CPUState`: whether `cpu->env_ptr` is non-NULL. -/
structure CPUState where
  env_ptr : Bool
  deriving DecidableEq, Repr

/-- The surroundings of the device that its source does not define.
`qemu_get_cpu` is the emulator's hart lookup (`none` is the NULL result).
`shl_out_of_range n` is the `int` (as a bit pattern) that the host produces for
`1 << n` when `n ≥ 32`, which C leaves undefined. -/
structure Host where
  qemu_get_cpu : Nat → Option CPUState
  shl_out_of_range : Nat → Nat

/-- Externally visible actions of the handlers, in program order. -/
inductive Event where
  /-- `qemu_log("RISCV UINTC READ: addr=...")` -/
  | log_read (addr : Nat)
  /-- `qemu_log("RISCV UINTC WRITE: addr=... value=...")` -/
  | log_write (addr value : Nat)
  /-- `qemu_log_mask(LOG_UNIMP, "uintc: invalid read: ...")` -/
  | invalid_read (addr : Nat)
  /-- `qemu_log_mask(LOG_UNIMP, "uintc: invalid write: ...")` -/
  | invalid_write (addr : Nat)
  /-- `qemu_log_mask(LOG_GUEST_ERROR, "uintc: invalid hartid: ...")` -/
  | invalid_hartid (hartid : Nat)
  /-- `qemu_log("IPI to 0x%x\n", hartid)` -/
  | log_ipi (hartid : Nat)
  /-- `qemu_log_flush()` -/
  | log_flush
  /-- `qemu_irq_raise(uintc->soft_irqs[idx])` -/
  | irq_raise (idx : Nat)
  deriving DecidableEq, Repr

/-! ## Integer helpers -/

/-- Bit pattern of the `int` expression `1 << value` (`value` a `uint64_t`).
For `value < 32` the shift is done in 32-bit two's complement, so `1 << 31` is
`INT_MIN` (pattern `0x80000000`); for larger counts the host decides. -/
def int_one_shl (host : Host) (value : Nat) : Nat :=
  if value < 32 then (1 <<< value) % 2 ^ 32 else host.shl_out_of_range value % 2 ^ 32

/-- Conversion of an `int` (given by its bit pattern) to `uint32_t`. -/
def int_to_uint32 (r : Nat) : Nat := r % 2 ^ 32

/-- Conversion of an `int` (given by its bit pattern) to `uint64_t`: sign extension. -/
def int_to_uint64 (r : Nat) : Nat :=
  if r % 2 ^ 32 < 2 ^ 31 then r % 2 ^ 32 else r % 2 ^ 32 + (2 ^ 64 - 2 ^ 32)

/-- The `uint32_t` difference `a - b` (`a` promoted from `uint16_t`, `b` a `uint32_t`). -/
def sub_uint32 (a b : Nat) : Nat := (a + 2 ^ 32 - b % 2 ^ 32) % 2 ^ 32

/-- The test `cpu ? cpu->env_ptr : NULL` followed by `!env`: `true` when `env` is non-NULL. -/
def cpu_env (host : Host) (hartid : Nat) : Bool :=
  match host.qemu_get_cpu hartid with
  | some cpu => cpu.env_ptr
  | none => false

/-- Store `slot` into `uintc->uirs[index]`. -/
def set_uirs (uintc : RISCVUintcState) (index : Fin RISCV_UINTC_MAX_HARTS)
    (slot : RISCVUintcUIRS) : RISCVUintcState :=
  { uintc with uirs := Function.update uintc.uirs index slot }

/-- The declaration `uint16_t index = addr >> 5`, executed after the range test on `addr`
has passed; the result indexes `uirs`. -/
def slot_index (addr : Nat) (h : addr < RISCV_UINTC_MAX_HARTS <<< 5) :
    Fin RISCV_UINTC_MAX_HARTS :=
  ⟨(addr >>> 5) % 2 ^ 16, by
    have h1 : addr < 16384 := h
    rw [Nat.shiftRight_eq_div_pow]
    omega⟩

/-! ## The handlers -/

/-- Function `riscv_uintc_read`: the value returned and the log lines written. -/
def riscv_uintc_read (uintc : RISCVUintcState) (addr : Nat) (_size : Nat) : Nat × List Event :=
  if h : addr < RISCV_UINTC_MAX_HARTS <<< 5 then
    let index := slot_index addr h
    let slot := uintc.uirs index
    let reg := addr &&& 0x1f
    if reg = UINTC_READ_LOW then
      (((slot.hartid <<< 16) % 2 ^ 64) ||| slot.mode, [Event.log_read addr])
    else if reg = UINTC_READ_HIGH then
      if slot.mode &&& 0x2 ≠ 0 then
        (slot.pending1, [Event.log_read addr])
      else
        (slot.pending0 % 2 ^ 32, [Event.log_read addr])
    else if reg = UINTC_READ_HIGH + 4 then
      if slot.mode &&& 0x2 = 0 then
        ((slot.pending1 >>> 32) % 2 ^ 32, [Event.log_read addr])
      else
        (0, [Event.log_read addr, Event.invalid_read addr])
    else if reg = UINTC_GET_ACTIVE then
      (slot.mode &&& 0x1, [Event.log_read addr])
    else if reg = UINTC_READ_LOW + 4 ∨ reg = UINTC_GET_ACTIVE + 4 then
      (0, [Event.log_read addr])
    else
      (0, [Event.log_read addr, Event.invalid_read addr])
  else
    (0, [Event.invalid_read addr])

/-- Function `riscv_uintc_write`: the new state and the events, in program order. -/
def riscv_uintc_write (host : Host) (uintc : RISCVUintcState) (addr value : Nat) (_size : Nat) :
    RISCVUintcState × List Event :=
  if h : addr < RISCV_UINTC_MAX_HARTS <<< 5 then
    let index := slot_index addr h
    let slot := uintc.uirs index
    let reg := addr &&& 0x1f
    if reg = UINTC_SEND then
      let hartid := slot.hartid
      if cpu_env host hartid = false then
        (uintc, [Event.log_write addr value, Event.invalid_hartid hartid])
      else if slot.mode &&& 0x1 ≠ 0 then
        let slot1 :=
          if slot.mode &&& 0x2 ≠ 0 then
            { slot with
              pending1 := slot.pending1 ||| int_to_uint64 (int_one_shl host value) }
          else
            { slot with
              pending0 := slot.pending0 ||| int_to_uint32 (int_one_shl host value) }
        (set_uirs uintc index slot1,
          [Event.log_write addr value, Event.log_ipi hartid, Event.log_flush,
            Event.irq_raise (sub_uint32 slot1.hartid uintc.hartid_base)])
      else
        (uintc, [Event.log_write addr value])
    else if reg = UINTC_WRITE_LOW then
      (set_uirs uintc index
          { slot with hartid := (value >>> 16) % 2 ^ 16, mode := (value &&& 0x3) % 2 ^ 16 },
        [Event.log_write addr value])
    else if reg = UINTC_WRITE_HIGH then
      if slot.mode &&& 0x2 ≠ 0 then
        (set_uirs uintc index { slot with pending1 := value }, [Event.log_write addr value])
      else
        (set_uirs uintc index { slot with pending0 := value % 2 ^ 32 },
          [Event.log_write addr value])
    else if reg = UINTC_WRITE_HIGH + 4 then
      if slot.mode &&& 0x2 ≠ 0 then
        (set_uirs uintc index { slot with pending1 := slot.pending1 ||| (value <<< 32) % 2 ^ 64 },
          [Event.log_write addr value])
      else
        (uintc, [Event.log_write addr value, Event.invalid_write addr])
    else if reg = UINTC_SET_ACTIVE then
      if value ≠ 0 then
        (set_uirs uintc index { slot with mode := (slot.mode ||| 0x1) % 2 ^ 16 },
          [Event.log_write addr value])
      else
        (set_uirs uintc index { slot with mode := (slot.mode &&& 0xfffe) % 2 ^ 16 },
          [Event.log_write addr value])
    else if reg = UINTC_SEND + 4 ∨ reg = UINTC_WRITE_LOW + 4 ∨ reg = UINTC_SET_ACTIVE + 4 then
      (uintc, [Event.log_write addr value])
    else
      (uintc, [Event.log_write addr value, Event.invalid_write addr])
  else
    (uintc, [Event.invalid_write addr])

/-- Function `riscv_uintc_write` read statement by statement: every event of the handler,
in program order, paired with the device state at the moment the event happens (the
stores executed before it are in that state, the stores executed after it are not). -/
def riscv_uintc_write_steps (host : Host) (uintc : RISCVUintcState) (addr value : Nat)
    (_size : Nat) : List (Event × RISCVUintcState) :=
  if h : addr < RISCV_UINTC_MAX_HARTS <<< 5 then
    let index := slot_index addr h
    let slot := uintc.uirs index
    let reg := addr &&& 0x1f
    if reg = UINTC_SEND then
      let hartid := slot.hartid
      if cpu_env host hartid = false then
        [(Event.log_write addr value, uintc), (Event.invalid_hartid hartid, uintc)]
      else if slot.mode &&& 0x1 ≠ 0 then
        let slot1 :=
          if slot.mode &&& 0x2 ≠ 0 then
            { slot with
              pending1 := slot.pending1 ||| int_to_uint64 (int_one_shl host value) }
          else
            { slot with
              pending0 := slot.pending0 ||| int_to_uint32 (int_one_shl host value) }
        let uintc1 := set_uirs uintc index slot1
        [(Event.log_write addr value, uintc), (Event.log_ipi hartid, uintc1),
          (Event.log_flush, uintc1),
          (Event.irq_raise (sub_uint32 (uintc1.uirs index).hartid uintc1.hartid_base), uintc1)]
      else
        [(Event.log_write addr value, uintc)]
    else if reg = UINTC_WRITE_LOW then
      [(Event.log_write addr value, uintc)]
    else if reg = UINTC_WRITE_HIGH then
      [(Event.log_write addr value, uintc)]
    else if reg = UINTC_WRITE_HIGH + 4 then
      if slot.mode &&& 0x2 ≠ 0 then
        [(Event.log_write addr value, uintc)]
      else
        [(Event.log_write addr value, uintc), (Event.invalid_write addr, uintc)]
    else if reg = UINTC_SET_ACTIVE then
      [(Event.log_write addr value, uintc)]
    else if reg = UINTC_SEND + 4 ∨ reg = UINTC_WRITE_LOW + 4 ∨ reg = UINTC_SET_ACTIVE + 4 then
      [(Event.log_write addr value, uintc)]
    else
      [(Event.log_write addr value, uintc), (Event.invalid_write addr, uintc)]
  else
    [(Event.invalid_write addr, uintc)]

/-! ## Set-up -/

/-- The state built by `riscv_uintc_realize` for the properties `hartid-base` and
`num-harts`: `uirs = g_new0(RISCVUintcUIRS, RISCV_UINTC_MAX_HARTS)` is all zero. -/
def riscv_uintc_realize (hartid_base num_harts : Nat) : RISCVUintcState :=
  { hartid_base := hartid_base
    num_harts := num_harts
    uirs := fun _ => { mode := 0, hartid := 0, pending0 := 0, pending1 := 0 } }

/-- The array `soft_irqs` as wired by `riscv_uintc_create`: it has `num_harts` entries
and entry `i` is connected to the `IRQ_U_SOFT` input of hart `hartid_base + i`
(a `uint32_t` sum). The result is the hart behind entry `idx`, `none` when `idx` is
not an index of the array. -/
def soft_irq_hart (uintc : RISCVUintcState) (idx : Nat) : Option Nat :=
  if idx < uintc.num_harts then some ((uintc.hartid_base + idx) % 2 ^ 32) else none

/-! ## Observations on event lists -/

/-- The indices into `soft_irqs` of the `qemu_irq_raise` calls of an event list, in order. -/
def irq_raises : List Event → List Nat
  | [] => []
  | Event.irq_raise idx :: evs => idx :: irq_raises evs
  | _ :: evs => irq_raises evs

/-- The harts whose line is raised by an event list, in order; `none` stands for a
`qemu_irq_raise` on an entry outside `soft_irqs`. -/
def raised_harts (uintc : RISCVUintcState) (evs : List Event) : List (Option Nat) :=
  (irq_raises evs).map (soft_irq_hart uintc)

/-! ## Sequences of accesses -/

/-- A finite sequence of register writes, given as (address, value) pairs, performed one
after the other with `riscv_uintc_write`; the result is the final state and the
concatenation of the events. -/
def run_writes (host : Host) (size : Nat) :
    RISCVUintcState → List (Nat × Nat) → RISCVUintcState × List Event
  | uintc, [] => (uintc, [])
  | uintc, (addr, value) :: ws =>
    ((run_writes host size (riscv_uintc_write host uintc addr value size).1 ws).1,
      (riscv_uintc_write host uintc addr value size).2
        ++ (run_writes host size (riscv_uintc_write host uintc addr value size).1 ws).2)

/-! ## Concrete hosts and device states -/

/-- A machine with harts `0 .. n-1`, on a host whose 32-bit shift instruction uses the
count modulo 32 (x86-64, AArch64). -/
def host_harts (n : Nat) : Host :=
  { qemu_get_cpu := fun hartid => if hartid < n then some { env_ptr := true } else none
    shl_out_of_range := fun value => 1 <<< (value % 32) }

/-- A controller created with `hartid_base = 0`, `num_harts = 1` on a machine with harts 0
and 1, after the guest wrote `0x10001` to LOW of slot 0 (target hart 1, active, Narrow). -/
def uintc_narrow_hart1 : RISCVUintcState :=
  (riscv_uintc_write (host_harts 2) (riscv_uintc_realize 0 1) (0 * 32 + UINTC_WRITE_LOW)
    0x10001 8).1

/-- A controller created with `hartid_base = 0`, `num_harts = 4` on a machine with harts
`0 .. 3`, after the guest wrote `0x30001` to LOW of slot 0 (target hart 3, active, Narrow). -/
def uintc_narrow_hart3 : RISCVUintcState :=
  (riscv_uintc_write (host_harts 4) (riscv_uintc_realize 0 4) (0 * 32 + UINTC_WRITE_LOW)
    0x30001 8).1

/-- A controller created with `hartid_base = 0`, `num_harts = 4` on a machine with harts
`0 .. 3`, after the guest wrote `0x30003` to LOW of slot 0 (target hart 3, active, Wide). -/
def uintc_wide_hart3 : RISCVUintcState :=
  (riscv_uintc_write (host_harts 4) (riscv_uintc_realize 0 4) (0 * 32 + UINTC_WRITE_LOW)
    0x30003 8).1

/-- A controller created with `hartid_base = 0`, `num_harts = 1` on a machine with harts 0
and 1, after the guest wrote `0x10003` to LOW of slot 0 (target hart 1, active, Wide). -/
def uintc_wide_hart1 : RISCVUintcState :=
  (riscv_uintc_write (host_harts 2) (riscv_uintc_realize 0 1) (0 * 32 + UINTC_WRITE_LOW)
    0x10003 8).1

/-- The state `uintc_narrow_hart3` with `pending1` of slot 0 replaced by `2 ^ 32`; the two
states agree on everything else. -/
def uintc_narrow_hart3_high : RISCVUintcState :=
  set_uirs uintc_narrow_hart3 0 { uintc_narrow_hart3.uirs 0 with pending1 := 0x100000000 }

/-- A controller created with `hartid_base = 2`, `num_harts = 2` (the second pair of harts
of a machine with harts `0 .. 3`), after the guest wrote `0x1` to LOW of slot 0 (target
hart 0, active, Narrow). -/
def uintc_base2_hart0 : RISCVUintcState :=
  (riscv_uintc_write (host_harts 4) (riscv_uintc_realize 2 2) (0 * 32 + UINTC_WRITE_LOW)
    0x1 8).1

/-! ## Address decoding -/

theorem addr_in_range (i : Fin RISCV_UINTC_MAX_HARTS) (r : Nat) (hr : r < 32) :
    i.val * 32 + r < RISCV_UINTC_MAX_HARTS <<< 5 := by
  have h1 : i.val < 512 := i.isLt
  show i.val * 32 + r < 16384
  omega

theorem slot_index_slot (i : Fin RISCV_UINTC_MAX_HARTS) (r : Nat) (hr : r < 32)
    (h : i.val * 32 + r < RISCV_UINTC_MAX_HARTS <<< 5) :
    slot_index (i.val * 32 + r) h = i := by
  apply Fin.ext
  have h1 : i.val < 512 := i.isLt
  show ((i.val * 32 + r) >>> 5) % 2 ^ 16 = i.val
  clear h
  rw [Nat.shiftRight_eq_div_pow]
  omega

theorem reg_slot (i : Fin RISCV_UINTC_MAX_HARTS) (r : Nat) (hr : r < 32) :
    (i.val * 32 + r) &&& 0x1f = r := by
  have h1 := Nat.and_pow_two_sub_one_eq_mod (i.val * 32 + r) 5
  simp only [Nat.reducePow, Nat.add_one_sub_one] at h1
  rw [h1]
  omega

theorem and_one_ne_zero_iff (m : Nat) : m &&& 0x1 ≠ 0 ↔ m.testBit 0 = true := by
  rw [Nat.and_one_is_mod, Nat.testBit_zero]
  simp

theorem and_two_ne_zero_iff (m : Nat) : m &&& 0x2 ≠ 0 ↔ m.testBit 1 = true := by
  have h1 := Nat.and_two_pow m 1
  simp only [Nat.pow_one] at h1
  rw [h1]
  cases m.testBit 1 <;> simp

/-! ## The handlers at the registers of slot `i` -/

theorem write_send_eq (host : Host) (uintc : RISCVUintcState) (i : Fin RISCV_UINTC_MAX_HARTS)
    (value size : Nat) :
    riscv_uintc_write host uintc (i.val * 32 + UINTC_SEND) value size =
      if cpu_env host (uintc.uirs i).hartid = false then
        (uintc, [Event.log_write (i.val * 32 + UINTC_SEND) value,
          Event.invalid_hartid (uintc.uirs i).hartid])
      else if (uintc.uirs i).mode.testBit 0 = true then
        if (uintc.uirs i).mode.testBit 1 = true then
          (set_uirs uintc i { uintc.uirs i with
              pending1 := (uintc.uirs i).pending1 ||| int_to_uint64 (int_one_shl host value) },
            [Event.log_write (i.val * 32 + UINTC_SEND) value,
              Event.log_ipi (uintc.uirs i).hartid, Event.log_flush,
              Event.irq_raise (sub_uint32 (uintc.uirs i).hartid uintc.hartid_base)])
        else
          (set_uirs uintc i { uintc.uirs i with
              pending0 := (uintc.uirs i).pending0 ||| int_to_uint32 (int_one_shl host value) },
            [Event.log_write (i.val * 32 + UINTC_SEND) value,
              Event.log_ipi (uintc.uirs i).hartid, Event.log_flush,
              Event.irq_raise (sub_uint32 (uintc.uirs i).hartid uintc.hartid_base)])
      else
        (uintc, [Event.log_write (i.val * 32 + UINTC_SEND) value]) := by
  have hlt := addr_in_range i UINTC_SEND (by decide)
  unfold riscv_uintc_write
  rw [dif_pos hlt]
  simp only [slot_index_slot i UINTC_SEND (by decide) hlt, reg_slot i UINTC_SEND (by decide),
    and_one_ne_zero_iff, and_two_ne_zero_iff]
  by_cases h0 : cpu_env host (uintc.uirs i).hartid = false
  · simp [h0]
  · by_cases h1 : (uintc.uirs i).mode.testBit 0 = true
    · by_cases h2 : (uintc.uirs i).mode.testBit 1 = true
      · simp [h0, h1, h2]
      · simp [h0, h1, h2]
    · simp [h0, h1]

theorem write_low_eq (host : Host) (uintc : RISCVUintcState) (i : Fin RISCV_UINTC_MAX_HARTS)
    (value size : Nat) :
    riscv_uintc_write host uintc (i.val * 32 + UINTC_WRITE_LOW) value size =
      (set_uirs uintc i { uintc.uirs i with
          hartid := (value >>> 16) % 2 ^ 16, mode := (value &&& 0x3) % 2 ^ 16 },
        [Event.log_write (i.val * 32 + UINTC_WRITE_LOW) value]) := by
  have hlt := addr_in_range i UINTC_WRITE_LOW (by decide)
  unfold riscv_uintc_write
  rw [dif_pos hlt]
  simp [slot_index_slot i UINTC_WRITE_LOW (by decide) hlt, reg_slot i UINTC_WRITE_LOW (by decide)]

theorem write_high_eq (host : Host) (uintc : RISCVUintcState) (i : Fin RISCV_UINTC_MAX_HARTS)
    (value size : Nat) :
    riscv_uintc_write host uintc (i.val * 32 + UINTC_WRITE_HIGH) value size =
      if (uintc.uirs i).mode.testBit 1 = true then
        (set_uirs uintc i { uintc.uirs i with pending1 := value },
          [Event.log_write (i.val * 32 + UINTC_WRITE_HIGH) value])
      else
        (set_uirs uintc i { uintc.uirs i with pending0 := value % 2 ^ 32 },
          [Event.log_write (i.val * 32 + UINTC_WRITE_HIGH) value]) := by
  have hlt := addr_in_range i UINTC_WRITE_HIGH (by decide)
  unfold riscv_uintc_write
  rw [dif_pos hlt]
  simp only [slot_index_slot i UINTC_WRITE_HIGH (by decide) hlt,
    reg_slot i UINTC_WRITE_HIGH (by decide), and_two_ne_zero_iff]
  by_cases h2 : (uintc.uirs i).mode.testBit 1 = true <;>
    simp [h2, UINTC_SEND, UINTC_WRITE_LOW, UINTC_WRITE_HIGH, UINTC_SET_ACTIVE,
    UINTC_READ_LOW, UINTC_READ_HIGH, UINTC_GET_ACTIVE]

theorem write_high4_eq (host : Host) (uintc : RISCVUintcState)
    (i : Fin RISCV_UINTC_MAX_HARTS) (value size : Nat) :
    riscv_uintc_write host uintc (i.val * 32 + (UINTC_WRITE_HIGH + 4)) value size =
      if (uintc.uirs i).mode.testBit 1 = true then
        (set_uirs uintc i { uintc.uirs i with
            pending1 := (uintc.uirs i).pending1 ||| (value <<< 32) % 2 ^ 64 },
          [Event.log_write (i.val * 32 + (UINTC_WRITE_HIGH + 4)) value])
      else
        (uintc, [Event.log_write (i.val * 32 + (UINTC_WRITE_HIGH + 4)) value,
          Event.invalid_write (i.val * 32 + (UINTC_WRITE_HIGH + 4))]) := by
  have hlt := addr_in_range i (UINTC_WRITE_HIGH + 4) (by decide)
  unfold riscv_uintc_write
  rw [dif_pos hlt]
  simp only [slot_index_slot i (UINTC_WRITE_HIGH + 4) (by decide) hlt,
    reg_slot i (UINTC_WRITE_HIGH + 4) (by decide), and_two_ne_zero_iff]
  by_cases h2 : (uintc.uirs i).mode.testBit 1 = true <;>
    simp [h2, UINTC_SEND, UINTC_WRITE_LOW, UINTC_WRITE_HIGH, UINTC_SET_ACTIVE,
    UINTC_READ_LOW, UINTC_READ_HIGH, UINTC_GET_ACTIVE]

theorem write_active_eq (host : Host) (uintc : RISCVUintcState)
    (i : Fin RISCV_UINTC_MAX_HARTS) (value size : Nat) :
    riscv_uintc_write host uintc (i.val * 32 + UINTC_SET_ACTIVE) value size =
      if value ≠ 0 then
        (set_uirs uintc i { uintc.uirs i with mode := ((uintc.uirs i).mode ||| 0x1) % 2 ^ 16 },
          [Event.log_write (i.val * 32 + UINTC_SET_ACTIVE) value])
      else
        (set_uirs uintc i { uintc.uirs i with mode := ((uintc.uirs i).mode &&& 0xfffe) % 2 ^ 16 },
          [Event.log_write (i.val * 32 + UINTC_SET_ACTIVE) value]) := by
  have hlt := addr_in_range i UINTC_SET_ACTIVE (by decide)
  unfold riscv_uintc_write
  rw [dif_pos hlt]
  simp only [slot_index_slot i UINTC_SET_ACTIVE (by decide) hlt,
    reg_slot i UINTC_SET_ACTIVE (by decide)]
  by_cases h2 : value = 0 <;>
    simp [h2, UINTC_SEND, UINTC_WRITE_LOW, UINTC_WRITE_HIGH, UINTC_SET_ACTIVE,
    UINTC_READ_LOW, UINTC_READ_HIGH, UINTC_GET_ACTIVE]

theorem read_low_eq (uintc : RISCVUintcState) (i : Fin RISCV_UINTC_MAX_HARTS) (size : Nat) :
    riscv_uintc_read uintc (i.val * 32 + UINTC_READ_LOW) size =
      ((((uintc.uirs i).hartid <<< 16) % 2 ^ 64) ||| (uintc.uirs i).mode,
        [Event.log_read (i.val * 32 + UINTC_READ_LOW)]) := by
  have hlt := addr_in_range i UINTC_READ_LOW (by decide)
  unfold riscv_uintc_read
  rw [dif_pos hlt]
  simp [slot_index_slot i UINTC_READ_LOW (by decide) hlt, reg_slot i UINTC_READ_LOW (by decide)]

theorem read_high_eq (uintc : RISCVUintcState) (i : Fin RISCV_UINTC_MAX_HARTS) (size : Nat) :
    riscv_uintc_read uintc (i.val * 32 + UINTC_READ_HIGH) size =
      if (uintc.uirs i).mode.testBit 1 = true then
        ((uintc.uirs i).pending1, [Event.log_read (i.val * 32 + UINTC_READ_HIGH)])
      else
        ((uintc.uirs i).pending0 % 2 ^ 32, [Event.log_read (i.val * 32 + UINTC_READ_HIGH)]) := by
  have hlt := addr_in_range i UINTC_READ_HIGH (by decide)
  unfold riscv_uintc_read
  rw [dif_pos hlt]
  simp only [slot_index_slot i UINTC_READ_HIGH (by decide) hlt,
    reg_slot i UINTC_READ_HIGH (by decide), and_two_ne_zero_iff]
  by_cases h2 : (uintc.uirs i).mode.testBit 1 = true <;>
    simp [h2, UINTC_SEND, UINTC_WRITE_LOW, UINTC_WRITE_HIGH, UINTC_SET_ACTIVE,
    UINTC_READ_LOW, UINTC_READ_HIGH, UINTC_GET_ACTIVE]

theorem read_active_eq (uintc : RISCVUintcState) (i : Fin RISCV_UINTC_MAX_HARTS) (size : Nat) :
    riscv_uintc_read uintc (i.val * 32 + UINTC_GET_ACTIVE) size =
      ((uintc.uirs i).mode &&& 0x1, [Event.log_read (i.val * 32 + UINTC_GET_ACTIVE)]) := by
  have hlt := addr_in_range i UINTC_GET_ACTIVE (by decide)
  unfold riscv_uintc_read
  rw [dif_pos hlt]
  simp only [slot_index_slot i UINTC_GET_ACTIVE (by decide) hlt,
    reg_slot i UINTC_GET_ACTIVE (by decide)]
  simp [UINTC_READ_LOW, UINTC_READ_HIGH, UINTC_GET_ACTIVE]

theorem irq_raises_send (a v h k : Nat) :
    irq_raises [Event.log_write a v, Event.log_ipi h, Event.log_flush, Event.irq_raise k]
      = [k] := rfl

theorem set_uirs_same (uintc : RISCVUintcState) (i : Fin RISCV_UINTC_MAX_HARTS)
    (slot : RISCVUintcUIRS) : (set_uirs uintc i slot).uirs i = slot := by
  simp [set_uirs]

theorem set_uirs_other (uintc : RISCVUintcState) (i j : Fin RISCV_UINTC_MAX_HARTS)
    (slot : RISCVUintcUIRS) (hj : j ≠ i) : (set_uirs uintc i slot).uirs j = uintc.uirs j := by
  simp [set_uirs, Function.update_noteq hj]

theorem set_uirs_set_uirs (uintc : RISCVUintcState) (i : Fin RISCV_UINTC_MAX_HARTS)
    (a b : RISCVUintcUIRS) : set_uirs (set_uirs uintc i a) i b = set_uirs uintc i b := by
  simp [set_uirs]

theorem set_uirs_hartid_base (uintc : RISCVUintcState) (i : Fin RISCV_UINTC_MAX_HARTS)
    (slot : RISCVUintcUIRS) : (set_uirs uintc i slot).hartid_base = uintc.hartid_base := rfl

theorem soft_irq_hart_set_uirs (uintc : RISCVUintcState) (i : Fin RISCV_UINTC_MAX_HARTS)
    (slot : RISCVUintcUIRS) (k : Nat) :
    soft_irq_hart (set_uirs uintc i slot) k = soft_irq_hart uintc k := rfl

/-- The line index computed by the send path is the one wired to the target hart, when
the target lies among the harts `hartid_base .. hartid_base + num_harts - 1`. -/
theorem soft_irq_hart_target (uintc : RISCVUintcState) (hartid : Nat)
    (h16 : hartid < 2 ^ 16) (hlo : uintc.hartid_base ≤ hartid)
    (hhi : hartid < uintc.hartid_base + uintc.num_harts) :
    soft_irq_hart uintc (sub_uint32 hartid uintc.hartid_base) = some hartid := by
  have e1 : sub_uint32 hartid uintc.hartid_base = hartid - uintc.hartid_base := by
    unfold sub_uint32
    omega
  rw [e1]
  unfold soft_irq_hart
  rw [if_pos (by omega)]
  congr 1
  omega

theorem int_one_shl_lt (host : Host) (b : Nat) (hb : b ≤ 31) : int_one_shl host b = 2 ^ b := by
  unfold int_one_shl
  rw [if_pos (by omega), Nat.one_shiftLeft, Nat.mod_eq_of_lt]
  exact Nat.pow_lt_pow_right (by norm_num) (by omega)

theorem int_to_uint32_one_shl (host : Host) (b : Nat) (hb : b ≤ 31) :
    int_to_uint32 (int_one_shl host b) = 2 ^ b := by
  rw [int_one_shl_lt host b hb]
  unfold int_to_uint32
  apply Nat.mod_eq_of_lt
  exact Nat.pow_lt_pow_right (by norm_num) (by omega)

/-! ## Bit-level facts -/

theorem testBit_mask16 (k : Nat) : (65535 : Nat).testBit k = decide (k < 16) :=
  Nat.testBit_two_pow_sub_one 16 k

theorem testBit_mask2 (k : Nat) : (3 : Nat).testBit k = decide (k < 2) :=
  Nat.testBit_two_pow_sub_one 2 k

theorem low_mask_eq : (0xFFFF0003 : Nat) = (65535 <<< 16) ||| 3 := by decide

theorem testBit_false_of_lt (x n k : Nat) (hx : x < 2 ^ n) (hk : n ≤ k) :
    x.testBit k = false :=
  Nat.testBit_lt_two_pow (Nat.lt_of_lt_of_le hx (Nat.pow_le_pow_right (by norm_num) hk))

/-- What a LOW read returns after a LOW write of `v`, as one mask. -/
theorem low_fields_eq_mask (v : Nat) :
    ((((v >>> 16) % 2 ^ 16) <<< 16) % 2 ^ 64) ||| ((v &&& 0x3) % 2 ^ 16) = v &&& 0xFFFF0003 := by
  apply Nat.eq_of_testBit_eq
  intro k
  rw [low_mask_eq]
  simp only [Nat.testBit_lor, Nat.testBit_land, Nat.testBit_mod_two_pow, Nat.testBit_shiftLeft,
    Nat.testBit_shiftRight, testBit_mask16, testBit_mask2]
  by_cases h2 : k < 2
  · have h3 : ¬ (k ≥ 16) := by omega
    have h4 : k < 16 := by omega
    simp [*]
  · by_cases h16 : k ≥ 16
    · by_cases h32 : k - 16 < 16
      · have h5 : k < 64 := by omega
        have h6 : 16 + (k - 16) = k := by omega
        simp [*]
      · simp [*]
    · simp [*]

/-- A value built from a 16-bit hart id and a 2-bit mode lies inside the LOW mask. -/
theorem low_mask_absorbs (H M : Nat) (hH : H < 65536) (hM : M < 4) :
    ((H <<< 16) ||| M) &&& 0xFFFF0003 = (H <<< 16) ||| M := by
  apply Nat.eq_of_testBit_eq
  intro k
  rw [low_mask_eq]
  simp only [Nat.testBit_lor, Nat.testBit_land, Nat.testBit_shiftLeft, testBit_mask16,
    testBit_mask2]
  by_cases h2 : k < 2
  · simp [h2]
  · have hMk : M.testBit k = false := testBit_false_of_lt M 2 k (by omega) (by omega)
    by_cases h16 : k ≥ 16
    · by_cases h32 : k - 16 < 16
      · simp [*]
      · have hHk : H.testBit (k - 16) = false :=
          testBit_false_of_lt H 16 (k - 16) (by omega) (by omega)
        simp [*]
    · simp [*]

theorem and_three_mod (v : Nat) : (v &&& 0x3) % 2 ^ 16 = v &&& 0x3 := by
  have h1 := Nat.and_pow_two_sub_one_eq_mod v 2
  simp only [Nat.reducePow, Nat.add_one_sub_one] at h1
  rw [h1]
  omega

theorem set_active_bits (m : Nat) :
    ((m ||| 0x1) % 2 ^ 16).testBit 0 = true ∧
    ((m ||| 0x1) % 2 ^ 16).testBit 1 = m.testBit 1 ∧
    ((m &&& 0xfffe) % 2 ^ 16).testBit 0 = false ∧
    ((m &&& 0xfffe) % 2 ^ 16).testBit 1 = m.testBit 1 := by
  have h0 : (0xfffe : Nat).testBit 0 = false := by decide
  have h1 : (0xfffe : Nat).testBit 1 = true := by decide
  have h2 : (0x1 : Nat).testBit 0 = true := by decide
  have h3 : (0x1 : Nat).testBit 1 = false := by decide
  simp only [Nat.testBit_mod_two_pow, Nat.testBit_lor, Nat.testBit_land, h0, h1, h2, h3]
  simp

theorem and_one_eq_ite (m : Nat) : m &&& 0x1 = if m.testBit 0 = true then 1 else 0 := by
  rw [Nat.and_one_is_mod, Nat.testBit_zero]
  by_cases h : m % 2 = 1
  · simp [h]
  · have h2 : m % 2 = 0 := by omega
    simp [h2]

/-! ## Sequences of writes -/

theorem run_writes_append_one (host : Host) (size : Nat) (ws : List (Nat × Nat))
    (addr value : Nat) (uintc : RISCVUintcState) :
    (run_writes host size uintc (ws ++ [(addr, value)])).1
      = (riscv_uintc_write host (run_writes host size uintc ws).1 addr value size).1 := by
  induction ws generalizing uintc with
  | nil => rfl
  | cons w ws ih =>
    obtain ⟨a, x⟩ := w
    simp only [List.cons_append, run_writes]
    exact ih _

/-- The width bit of slot `i` survives a sequence of ACTIVE writes to slot `i`. -/
theorem run_active_writes_width (host : Host) (size : Nat) (i : Fin RISCV_UINTC_MAX_HARTS)
    (vs : List Nat) (uintc : RISCVUintcState) :
    ((run_writes host size uintc
        (vs.map (fun w => (i.val * 32 + UINTC_SET_ACTIVE, w)))).1.uirs i).mode.testBit 1
      = (uintc.uirs i).mode.testBit 1 := by
  induction vs generalizing uintc with
  | nil => rfl
  | cons w vs ih =>
    simp only [List.map_cons, run_writes]
    rw [ih, write_active_eq]
    by_cases hw : w ≠ 0
    · rw [if_pos hw, set_uirs_same]
      exact (set_active_bits _).2.1
    · rw [if_neg hw, set_uirs_same]
      exact (set_active_bits _).2.2.2

/-! ## C1: send to an active Narrow slot -/

/-- C1 (as stated, refuted). On a controller with one output line (hart 0) in a machine
with harts 0 and 1, slot 0 is active, Narrow and targets hart 1, which the hart lookup
resolves; a write of 0 to SEND of slot 0 calls `qemu_irq_raise` on an entry outside the
one-element array `soft_irqs`: the line raised is not the line of hart 1. -/
theorem send_narrow_target_without_line :
    (uintc_narrow_hart1.uirs 0).mode.testBit 0 = true ∧
    (uintc_narrow_hart1.uirs 0).mode.testBit 1 = false ∧
    cpu_env (host_harts 2) (uintc_narrow_hart1.uirs 0).hartid = true ∧
    raised_harts uintc_narrow_hart1
      (riscv_uintc_write (host_harts 2) uintc_narrow_hart1 (0 * 32 + UINTC_SEND) 0 8).2
        = [none] ∧
    raised_harts uintc_narrow_hart1
      (riscv_uintc_write (host_harts 2) uintc_narrow_hart1 (0 * 32 + UINTC_SEND) 0 8).2
        ≠ [some (uintc_narrow_hart1.uirs 0).hartid] := by
  decide

/-- C1 (amended). For every slot `i` and bit `b ≤ 31`: if slot `i` is active (mode bit 0
set), Narrow (mode bit 1 clear), its target hart is resolved by the hart lookup and is one of
the harts `hartid_base .. hartid_base + num_harts - 1` that own a line of this controller,
then a write of `b` to SEND of slot `i` makes `pending0` its old value OR `2 ^ b` (bit `b`
set, every other bit as before), leaves `pending1`, `mode` and `hartid` unchanged, and
raises exactly one line, the one wired to the target hart. -/
theorem send_narrow_sets_bit_and_raises (host : Host) (uintc : RISCVUintcState)
    (i : Fin RISCV_UINTC_MAX_HARTS) (b size : Nat)
    (hb : b ≤ 31)
    (hactive : (uintc.uirs i).mode.testBit 0 = true)
    (hnarrow : (uintc.uirs i).mode.testBit 1 = false)
    (hres : cpu_env host (uintc.uirs i).hartid = true)
    (h16 : (uintc.uirs i).hartid < 2 ^ 16)
    (hlo : uintc.hartid_base ≤ (uintc.uirs i).hartid)
    (hhi : (uintc.uirs i).hartid < uintc.hartid_base + uintc.num_harts) :
    ((riscv_uintc_write host uintc (i.val * 32 + UINTC_SEND) b size).1.uirs i).pending0
        = (uintc.uirs i).pending0 ||| 2 ^ b ∧
    (∀ k, ((riscv_uintc_write host uintc (i.val * 32 + UINTC_SEND) b size).1.uirs i).pending0.testBit k
        = (decide (k = b) || (uintc.uirs i).pending0.testBit k)) ∧
    ((riscv_uintc_write host uintc (i.val * 32 + UINTC_SEND) b size).1.uirs i).pending1
        = (uintc.uirs i).pending1 ∧
    ((riscv_uintc_write host uintc (i.val * 32 + UINTC_SEND) b size).1.uirs i).mode
        = (uintc.uirs i).mode ∧
    ((riscv_uintc_write host uintc (i.val * 32 + UINTC_SEND) b size).1.uirs i).hartid
        = (uintc.uirs i).hartid ∧
    raised_harts uintc (riscv_uintc_write host uintc (i.val * 32 + UINTC_SEND) b size).2
        = [some (uintc.uirs i).hartid] := by
  rw [write_send_eq]
  simp only [hres, hactive, hnarrow, if_true, if_false, Bool.true_eq_false, Bool.false_eq_true,
    set_uirs_same, int_to_uint32_one_shl host b hb]
  refine ⟨trivial, ?_, trivial, trivial, trivial, ?_⟩
  · intro k
    rw [Nat.testBit_lor, Nat.testBit_two_pow, Bool.or_comm]
    congr 1
    simp [eq_comm]
  · unfold raised_harts
    rw [irq_raises_send, List.map_singleton, soft_irq_hart_target uintc _ h16 hlo hhi]

/-- C1 witness: slot 0 of a four-line controller, target hart 3, bit 5. -/
theorem send_narrow_sets_bit_and_raises_witness :
    ((uintc_narrow_hart3.uirs 0).mode.testBit 0 = true ∧
      (uintc_narrow_hart3.uirs 0).mode.testBit 1 = false ∧
      cpu_env (host_harts 4) (uintc_narrow_hart3.uirs 0).hartid = true ∧
      uintc_narrow_hart3.hartid_base ≤ (uintc_narrow_hart3.uirs 0).hartid ∧
      (uintc_narrow_hart3.uirs 0).hartid
        < uintc_narrow_hart3.hartid_base + uintc_narrow_hart3.num_harts) ∧
    ((riscv_uintc_write (host_harts 4) uintc_narrow_hart3 (0 * 32 + UINTC_SEND) 5 8).1.uirs
        0).pending0 = (uintc_narrow_hart3.uirs 0).pending0 ||| 2 ^ 5 ∧
    raised_harts uintc_narrow_hart3
        (riscv_uintc_write (host_harts 4) uintc_narrow_hart3 (0 * 32 + UINTC_SEND) 5 8).2
        = [some (uintc_narrow_hart3.uirs 0).hartid] :=
  have h := send_narrow_sets_bit_and_raises (host_harts 4) uintc_narrow_hart3 0 5 8
    (by decide) (by decide) (by decide) (by decide) (by decide) (by decide) (by decide)
  ⟨by decide, h.1, h.2.2.2.2.2⟩

/-! ## C2: send to an active Wide slot -/

/-- With a Wide, active slot whose target is resolved, a send ORs into `pending1` the
`int` value `1 << value` converted to `uint64_t`, for every `value`. -/
theorem send_wide_pending1 (host : Host) (uintc : RISCVUintcState)
    (i : Fin RISCV_UINTC_MAX_HARTS) (b size : Nat)
    (hactive : (uintc.uirs i).mode.testBit 0 = true)
    (hwide : (uintc.uirs i).mode.testBit 1 = true)
    (hres : cpu_env host (uintc.uirs i).hartid = true) :
    ((riscv_uintc_write host uintc (i.val * 32 + UINTC_SEND) b size).1.uirs i).pending1
      = (uintc.uirs i).pending1 ||| int_to_uint64 (int_one_shl host b) := by
  rw [write_send_eq]
  simp only [hres, hactive, hwide, if_true, if_false, Bool.true_eq_false, set_uirs_same]

/-- For bits below 31 the converted shift is the single bit `2 ^ b`. -/
theorem int_to_uint64_one_shl_low (host : Host) (b : Nat) (hb : b ≤ 30) :
    int_to_uint64 (int_one_shl host b) = 2 ^ b := by
  rw [int_one_shl_lt host b (by omega)]
  have h1 : 2 ^ b < 2 ^ 31 := Nat.pow_lt_pow_right (by norm_num) (by omega)
  unfold int_to_uint64
  have h2 : 2 ^ b % 2 ^ 32 = 2 ^ b := Nat.mod_eq_of_lt (by omega)
  rw [h2, if_pos h1]

/-- For no bit position from 31 upwards, and on no host, is the converted shift the
single bit `2 ^ b`: an `int` converted to `uint64_t` has bits 32 to 63 all equal. -/
theorem int_to_uint64_one_shl_high (host : Host) (b : Nat) (hb : 31 ≤ b) :
    int_to_uint64 (int_one_shl host b) ≠ 2 ^ b := by
  have h31 : 2 ^ 31 ≤ 2 ^ b := Nat.pow_le_pow_right (by norm_num) hb
  unfold int_to_uint64
  split
  · omega
  · rename_i hge
    have hlt : int_one_shl host b % 2 ^ 32 < 2 ^ 32 := Nat.mod_lt _ (by norm_num)
    by_cases h63 : b ≤ 63
    · have h2 : 2 ^ b ≤ 2 ^ 63 := Nat.pow_le_pow_right (by norm_num) h63
      omega
    · have h2 : 2 ^ 64 ≤ 2 ^ b := Nat.pow_le_pow_right (by norm_num) (by omega)
      omega

/-- C2 (the code at the failing input). Slot 0 is active, Wide, targets hart 3 of a
four-hart machine covered by the controller, and `pending1 = 0`; a write of 31 to SEND
leaves `pending1 = 0xFFFFFFFF80000000` (bits 31 to 63 set), not `0 OR 2^31 = 0x80000000`. -/
theorem send_wide_bit31_sets_bits_31_to_63 :
    (uintc_wide_hart3.uirs 0).mode.testBit 0 = true ∧
    (uintc_wide_hart3.uirs 0).mode.testBit 1 = true ∧
    cpu_env (host_harts 4) (uintc_wide_hart3.uirs 0).hartid = true ∧
    soft_irq_hart uintc_wide_hart3 3 = some (uintc_wide_hart3.uirs 0).hartid ∧
    (uintc_wide_hart3.uirs 0).pending1 = 0 ∧
    ((riscv_uintc_write (host_harts 4) uintc_wide_hart3 (0 * 32 + UINTC_SEND) 31 8).1.uirs
        0).pending1 = 0xFFFFFFFF80000000 ∧
    (uintc_wide_hart3.uirs 0).pending1 ||| 2 ^ 31 = 0x80000000 := by
  decide

/-- On every host and for every bit position `b ≥ 31`, a send of `b` to an active Wide slot
with resolved target and empty `pending1` does not leave `pending1 = 2 ^ b`. -/
theorem send_wide_high_bit_wrong (host : Host) (uintc : RISCVUintcState)
    (i : Fin RISCV_UINTC_MAX_HARTS) (b size : Nat) (hb : 31 ≤ b)
    (hactive : (uintc.uirs i).mode.testBit 0 = true)
    (hwide : (uintc.uirs i).mode.testBit 1 = true)
    (hres : cpu_env host (uintc.uirs i).hartid = true)
    (hempty : (uintc.uirs i).pending1 = 0) :
    ((riscv_uintc_write host uintc (i.val * 32 + UINTC_SEND) b size).1.uirs i).pending1
      ≠ (uintc.uirs i).pending1 ||| 2 ^ b := by
  rw [send_wide_pending1 host uintc i b size hactive hwide hres, hempty]
  simp only [Nat.zero_or]
  exact int_to_uint64_one_shl_high host b hb

/-- For bit positions `b ≤ 30` a send to an active Wide slot with resolved target sets
exactly bit `b` of `pending1` and leaves the other fields of the slot unchanged. -/
theorem send_wide_low_bit (host : Host) (uintc : RISCVUintcState)
    (i : Fin RISCV_UINTC_MAX_HARTS) (b size : Nat) (hb : b ≤ 30)
    (hactive : (uintc.uirs i).mode.testBit 0 = true)
    (hwide : (uintc.uirs i).mode.testBit 1 = true)
    (hres : cpu_env host (uintc.uirs i).hartid = true) :
    (riscv_uintc_write host uintc (i.val * 32 + UINTC_SEND) b size).1.uirs i
      = { uintc.uirs i with pending1 := (uintc.uirs i).pending1 ||| 2 ^ b } := by
  rw [write_send_eq]
  simp only [hres, hactive, hwide, if_true, Bool.true_eq_false, if_false, set_uirs_same,
    int_to_uint64_one_shl_low host b hb]

/-! ## C3: send to an inactive slot -/

/-- C3. For every slot `i` whose active bit (mode bit 0) is clear, whatever its width bit,
its target and the hart lookup, and for every value, a write to SEND of slot `i` returns
the device state unchanged (all slots, so both pending fields) and raises no line. -/
theorem send_inactive_no_effect (host : Host) (uintc : RISCVUintcState)
    (i : Fin RISCV_UINTC_MAX_HARTS) (value size : Nat)
    (hinactive : (uintc.uirs i).mode.testBit 0 = false) :
    (riscv_uintc_write host uintc (i.val * 32 + UINTC_SEND) value size).1 = uintc ∧
    irq_raises (riscv_uintc_write host uintc (i.val * 32 + UINTC_SEND) value size).2 = [] := by
  rw [write_send_eq]
  by_cases hres : cpu_env host (uintc.uirs i).hartid = false
  · simp [hres, irq_raises]
  · simp [hres, hinactive, irq_raises]

/-- C3 witness: slot 7 of a freshly realized controller is inactive. -/
theorem send_inactive_no_effect_witness :
    ((riscv_uintc_realize 0 4).uirs 7).mode.testBit 0 = false ∧
    (riscv_uintc_write (host_harts 4) (riscv_uintc_realize 0 4) ((7 : Fin 512).val * 32 + UINTC_SEND)
        9 8).1 = riscv_uintc_realize 0 4 ∧
    irq_raises (riscv_uintc_write (host_harts 4) (riscv_uintc_realize 0 4)
        ((7 : Fin 512).val * 32 + UINTC_SEND) 9 8).2 = [] :=
  ⟨by decide, send_inactive_no_effect (host_harts 4) (riscv_uintc_realize 0 4) 7 9 8 (by decide)⟩

/-! ## C4: send with an unresolvable target -/

/-- C4. For every slot `i` (any mode) whose target hart is not resolved by the hart lookup
and for every value, a write to SEND of slot `i` returns the device state unchanged, raises
no line, and its events are the handler's trace line followed by the guest-error
diagnostic naming the target. -/
theorem send_unresolved_target_no_effect (host : Host) (uintc : RISCVUintcState)
    (i : Fin RISCV_UINTC_MAX_HARTS) (value size : Nat)
    (hunres : cpu_env host (uintc.uirs i).hartid = false) :
    (riscv_uintc_write host uintc (i.val * 32 + UINTC_SEND) value size).1 = uintc ∧
    irq_raises (riscv_uintc_write host uintc (i.val * 32 + UINTC_SEND) value size).2 = [] ∧
    (riscv_uintc_write host uintc (i.val * 32 + UINTC_SEND) value size).2
      = [Event.log_write (i.val * 32 + UINTC_SEND) value,
          Event.invalid_hartid (uintc.uirs i).hartid] := by
  rw [write_send_eq]
  simp [hunres, irq_raises]

/-- C4 witness: slot 0 is active and targets hart 3 on a machine that has harts 0 and 1 only. -/
theorem send_unresolved_target_no_effect_witness :
    cpu_env (host_harts 2) (uintc_narrow_hart3.uirs 0).hartid = false ∧
    (riscv_uintc_write (host_harts 2) uintc_narrow_hart3 ((0 : Fin 512).val * 32 + UINTC_SEND)
        5 8).1 = uintc_narrow_hart3 ∧
    irq_raises (riscv_uintc_write (host_harts 2) uintc_narrow_hart3
        ((0 : Fin 512).val * 32 + UINTC_SEND) 5 8).2 = [] ∧
    (riscv_uintc_write (host_harts 2) uintc_narrow_hart3 ((0 : Fin 512).val * 32 + UINTC_SEND)
        5 8).2
      = [Event.log_write ((0 : Fin 512).val * 32 + UINTC_SEND) 5,
          Event.invalid_hartid (uintc_narrow_hart3.uirs 0).hartid] :=
  ⟨by decide,
    send_unresolved_target_no_effect (host_harts 2) uintc_narrow_hart3 0 5 8 (by decide)⟩

/-! ## C5: LOW round trip -/

/-- C5. For every slot `i`, every `H < 65536` and `M < 4`, a LOW read after a LOW write of
`(H << 16) | M` returns `(H << 16) | M`; for every value `v`, the LOW read after a LOW write
of `v` returns `v AND 0xFFFF0003`, the write stores bits 16-31 of `v` in `hartid` and bits
0-1 of `v` in `mode`, and it leaves `pending0` and `pending1` unchanged. -/
theorem low_write_read_roundtrip (host : Host) (uintc : RISCVUintcState)
    (i : Fin RISCV_UINTC_MAX_HARTS) (H M v size : Nat) (hH : H < 65536) (hM : M < 4) :
    (riscv_uintc_read
        (riscv_uintc_write host uintc (i.val * 32 + UINTC_WRITE_LOW) ((H <<< 16) ||| M) size).1
        (i.val * 32 + UINTC_READ_LOW) size).1 = (H <<< 16) ||| M ∧
    (riscv_uintc_read
        (riscv_uintc_write host uintc (i.val * 32 + UINTC_WRITE_LOW) v size).1
        (i.val * 32 + UINTC_READ_LOW) size).1 = v &&& 0xFFFF0003 ∧
    ((riscv_uintc_write host uintc (i.val * 32 + UINTC_WRITE_LOW) v size).1.uirs i).hartid
        = (v >>> 16) % 2 ^ 16 ∧
    ((riscv_uintc_write host uintc (i.val * 32 + UINTC_WRITE_LOW) v size).1.uirs i).mode
        = v &&& 0x3 ∧
    ((riscv_uintc_write host uintc (i.val * 32 + UINTC_WRITE_LOW) v size).1.uirs i).pending0
        = (uintc.uirs i).pending0 ∧
    ((riscv_uintc_write host uintc (i.val * 32 + UINTC_WRITE_LOW) v size).1.uirs i).pending1
        = (uintc.uirs i).pending1 := by
  simp only [write_low_eq, read_low_eq, set_uirs_same]
  refine ⟨?_, low_fields_eq_mask v, trivial, and_three_mod v, trivial, trivial⟩
  rw [low_fields_eq_mask, low_mask_absorbs H M hH hM]

/-- C5 witness: hart 3, mode 1 on slot 2 of a fresh controller. -/
theorem low_write_read_roundtrip_witness :
    (3 < 65536 ∧ 1 < 4) ∧
    (riscv_uintc_read
        (riscv_uintc_write (host_harts 4) (riscv_uintc_realize 0 4)
          ((2 : Fin 512).val * 32 + UINTC_WRITE_LOW) ((3 <<< 16) ||| 1) 8).1
        ((2 : Fin 512).val * 32 + UINTC_READ_LOW) 8).1 = (3 <<< 16) ||| 1 :=
  ⟨by decide,
    (low_write_read_roundtrip (host_harts 4) (riscv_uintc_realize 0 4) 2 3 1 0 8
      (by decide) (by decide)).1⟩

/-! ## C6: HIGH round trip in Wide width -/

/-- C6. For every slot `i` whose width bit (mode bit 1) is set, every `X` and every 32-bit
`Y`: after a write of `X` to HIGH and a write of `Y` to HIGH+4, a HIGH read returns
`X | (Y << 32)`, whatever `pending1` held before. -/
theorem high_wide_roundtrip (host : Host) (uintc : RISCVUintcState)
    (i : Fin RISCV_UINTC_MAX_HARTS) (X Y size : Nat)
    (hwide : (uintc.uirs i).mode.testBit 1 = true) (hY : Y < 2 ^ 32) :
    (riscv_uintc_read
        (riscv_uintc_write host
          (riscv_uintc_write host uintc (i.val * 32 + UINTC_WRITE_HIGH) X size).1
          (i.val * 32 + (UINTC_WRITE_HIGH + 4)) Y size).1
        (i.val * 32 + UINTC_READ_HIGH) size).1 = X ||| (Y <<< 32) := by
  have hY64 : Y <<< 32 < 2 ^ 64 := Nat.shiftLeft_lt hY
  simp only [write_high_eq, hwide, if_true, write_high4_eq, set_uirs_same, read_high_eq,
    Nat.mod_eq_of_lt hY64]

/-- C6 witness: slot 0 in Wide width, `X = 0xdeadbeef`, `Y = 0x12345678`. -/
theorem high_wide_roundtrip_witness :
    ((uintc_wide_hart3.uirs 0).mode.testBit 1 = true ∧ 0x12345678 < 2 ^ 32) ∧
    (riscv_uintc_read
        (riscv_uintc_write (host_harts 4)
          (riscv_uintc_write (host_harts 4) uintc_wide_hart3
            ((0 : Fin 512).val * 32 + UINTC_WRITE_HIGH) 0xdeadbeef 8).1
          ((0 : Fin 512).val * 32 + (UINTC_WRITE_HIGH + 4)) 0x12345678 8).1
        ((0 : Fin 512).val * 32 + UINTC_READ_HIGH) 8).1 = 0xdeadbeef ||| (0x12345678 <<< 32) :=
  ⟨by decide,
    high_wide_roundtrip (host_harts 4) uintc_wide_hart3 0 0xdeadbeef 0x12345678 8
      (by decide) (by decide)⟩

/-! ## C7: ACTIVE write -/

/-- C7. For every slot `i` and every value `v`, a write of `v` to ACTIVE sets mode bit 0 to
1 when `v ≠ 0` and to 0 when `v = 0`, and leaves mode bit 1, `hartid`, `pending0` and
`pending1` unchanged; after every finite sequence of ACTIVE writes to slot `i` the width bit
is the one before the sequence, and an ACTIVE read after a sequence ending with the value
`w` returns 1 when `w ≠ 0` and 0 when `w = 0`. -/
theorem active_write_toggles_bit0_only (host : Host) (uintc : RISCVUintcState)
    (i : Fin RISCV_UINTC_MAX_HARTS) (v size : Nat) :
    ((riscv_uintc_write host uintc (i.val * 32 + UINTC_SET_ACTIVE) v size).1.uirs i).mode.testBit 0
        = decide (v ≠ 0) ∧
    ((riscv_uintc_write host uintc (i.val * 32 + UINTC_SET_ACTIVE) v size).1.uirs i).mode.testBit 1
        = (uintc.uirs i).mode.testBit 1 ∧
    ((riscv_uintc_write host uintc (i.val * 32 + UINTC_SET_ACTIVE) v size).1.uirs i).hartid
        = (uintc.uirs i).hartid ∧
    ((riscv_uintc_write host uintc (i.val * 32 + UINTC_SET_ACTIVE) v size).1.uirs i).pending0
        = (uintc.uirs i).pending0 ∧
    ((riscv_uintc_write host uintc (i.val * 32 + UINTC_SET_ACTIVE) v size).1.uirs i).pending1
        = (uintc.uirs i).pending1 ∧
    (∀ vs : List Nat,
      ((run_writes host size uintc
          (vs.map (fun w => (i.val * 32 + UINTC_SET_ACTIVE, w)))).1.uirs i).mode.testBit 1
        = (uintc.uirs i).mode.testBit 1) ∧
    (∀ (vs : List Nat) (w : Nat),
      (riscv_uintc_read
          (run_writes host size uintc
            ((vs ++ [w]).map (fun w => (i.val * 32 + UINTC_SET_ACTIVE, w)))).1
          (i.val * 32 + UINTC_GET_ACTIVE) size).1 = if w ≠ 0 then 1 else 0) := by
  refine ⟨?_, ?_, ?_, ?_, ?_, fun vs => run_active_writes_width host size i vs uintc, ?_⟩
  · rw [write_active_eq]
    by_cases hv : v ≠ 0
    · rw [if_pos hv, set_uirs_same]
      show ((((uintc.uirs i).mode ||| 0x1) % 2 ^ 16).testBit 0) = decide (v ≠ 0)
      rw [(set_active_bits (uintc.uirs i).mode).1]
      simp [hv]
    · rw [if_neg hv, set_uirs_same]
      show ((((uintc.uirs i).mode &&& 0xfffe) % 2 ^ 16).testBit 0) = decide (v ≠ 0)
      rw [(set_active_bits (uintc.uirs i).mode).2.2.1]
      simp [hv]
  · rw [write_active_eq]
    by_cases hv : v ≠ 0
    · rw [if_pos hv, set_uirs_same]
      exact (set_active_bits _).2.1
    · rw [if_neg hv, set_uirs_same]
      exact (set_active_bits _).2.2.2
  · rw [write_active_eq]
    by_cases hv : v ≠ 0 <;> simp [hv, set_uirs_same]
  · rw [write_active_eq]
    by_cases hv : v ≠ 0 <;> simp [hv, set_uirs_same]
  · rw [write_active_eq]
    by_cases hv : v ≠ 0 <;> simp [hv, set_uirs_same]
  · intro vs w
    rw [List.map_append, List.map_singleton, run_writes_append_one, read_active_eq,
      write_active_eq, and_one_eq_ite]
    by_cases hw : w ≠ 0
    · rw [if_pos hw, set_uirs_same, if_pos hw]
      exact if_pos (set_active_bits _).1
    · rw [if_neg hw, set_uirs_same, if_neg hw]
      refine if_neg ?_
      rw [(set_active_bits _).2.2.1]
      exact Bool.false_ne_true

/-! ## C8: accesses beyond the register file -/

/-- C8. For every address `a ≥ RISCV_UINTC_MAX_HARTS * 32 = 16384`, a read at `a` returns 0,
and a write at `a` of any value returns the device state unchanged (all 512 slots) and
raises no line. -/
theorem out_of_range_access (host : Host) (uintc : RISCVUintcState) (a value size : Nat)
    (ha : RISCV_UINTC_MAX_HARTS * 32 ≤ a) :
    (riscv_uintc_read uintc a size).1 = 0 ∧
    (riscv_uintc_write host uintc a value size).1 = uintc ∧
    irq_raises (riscv_uintc_write host uintc a value size).2 = [] := by
  have hn : ¬ a < RISCV_UINTC_MAX_HARTS <<< 5 := by
    have h1 : RISCV_UINTC_MAX_HARTS <<< 5 = 16384 := by decide
    have h2 : RISCV_UINTC_MAX_HARTS * 32 = 16384 := by decide
    omega
  unfold riscv_uintc_read riscv_uintc_write
  rw [dif_neg hn, dif_neg hn]
  exact ⟨rfl, rfl, rfl⟩

/-- C8 witness: the first address past the register file, on a configured controller. -/
theorem out_of_range_access_witness :
    RISCV_UINTC_MAX_HARTS * 32 ≤ 16384 ∧
    (riscv_uintc_read uintc_narrow_hart3 16384 8).1 = 0 ∧
    (riscv_uintc_write (host_harts 4) uintc_narrow_hart3 16384 5 8).1 = uintc_narrow_hart3 ∧
    irq_raises (riscv_uintc_write (host_harts 4) uintc_narrow_hart3 16384 5 8).2 = [] :=
  ⟨by decide, out_of_range_access (host_harts 4) uintc_narrow_hart3 16384 5 8 (by decide)⟩

/-! ## C9: sending the same bit twice -/

/-- C9 (as stated, refuted). On a controller with one output line (hart 0) in a machine with
harts 0 and 1, slot 0 is active, Wide and targets hart 1, which the hart lookup resolves;
bit 2 is sent twice. The second send leaves the state as the first one left it, but each
of the two `qemu_irq_raise` calls is on an entry outside the one-element array
`soft_irqs`: the line of hart 1 is raised neither the first nor the second time. -/
theorem send_twice_target_without_line :
    (uintc_wide_hart1.uirs 0).mode.testBit 0 = true ∧
    cpu_env (host_harts 2) (uintc_wide_hart1.uirs 0).hartid = true ∧
    raised_harts uintc_wide_hart1
      (run_writes (host_harts 2) 8 uintc_wide_hart1
        [(0 * 32 + UINTC_SEND, 2), (0 * 32 + UINTC_SEND, 2)]).2 = [none, none] ∧
    raised_harts uintc_wide_hart1
      (run_writes (host_harts 2) 8 uintc_wide_hart1
        [(0 * 32 + UINTC_SEND, 2), (0 * 32 + UINTC_SEND, 2)]).2
      ≠ [some (uintc_wide_hart1.uirs 0).hartid, some (uintc_wide_hart1.uirs 0).hartid] := by
  decide

/-- C9 (amended). For every slot `i` that is active, whose target hart is resolved by the
hart lookup and is one of the harts `hartid_base .. hartid_base + num_harts - 1` that own a
line of this controller, and for every value `b`: sending `b` a second time right after
sending `b` returns the device state of the first send unchanged, each of the two sends
raises exactly one line, the one wired to the target hart, and the two sends together raise
that line twice. -/
theorem send_twice_same_state_two_raises (host : Host) (uintc : RISCVUintcState)
    (i : Fin RISCV_UINTC_MAX_HARTS) (b size : Nat)
    (hactive : (uintc.uirs i).mode.testBit 0 = true)
    (hres : cpu_env host (uintc.uirs i).hartid = true)
    (h16 : (uintc.uirs i).hartid < 2 ^ 16)
    (hlo : uintc.hartid_base ≤ (uintc.uirs i).hartid)
    (hhi : (uintc.uirs i).hartid < uintc.hartid_base + uintc.num_harts) :
    (riscv_uintc_write host
        (riscv_uintc_write host uintc (i.val * 32 + UINTC_SEND) b size).1
        (i.val * 32 + UINTC_SEND) b size).1
      = (riscv_uintc_write host uintc (i.val * 32 + UINTC_SEND) b size).1 ∧
    raised_harts uintc (riscv_uintc_write host uintc (i.val * 32 + UINTC_SEND) b size).2
      = [some (uintc.uirs i).hartid] ∧
    raised_harts uintc
        (riscv_uintc_write host
          (riscv_uintc_write host uintc (i.val * 32 + UINTC_SEND) b size).1
          (i.val * 32 + UINTC_SEND) b size).2
      = [some (uintc.uirs i).hartid] ∧
    raised_harts uintc
        (run_writes host size uintc
          [(i.val * 32 + UINTC_SEND, b), (i.val * 32 + UINTC_SEND, b)]).2
      = [some (uintc.uirs i).hartid, some (uintc.uirs i).hartid] := by
  have hk := soft_irq_hart_target uintc _ h16 hlo hhi
  simp only [run_writes, List.append_nil]
  by_cases hwide : (uintc.uirs i).mode.testBit 1 = true
  · simp only [write_send_eq, hres, hactive, hwide, if_true, if_false, Bool.true_eq_false,
      set_uirs_same, set_uirs_set_uirs, set_uirs_hartid_base, Nat.lor_assoc, Nat.or_self,
      raised_harts, irq_raises_send, List.map_singleton, hk, List.cons_append,
      List.nil_append, irq_raises, List.map_cons, List.map_nil, and_self]
  · have hnarrow : (uintc.uirs i).mode.testBit 1 = false := by
      simpa using hwide
    simp only [write_send_eq, hres, hactive, hnarrow, if_true, if_false, Bool.true_eq_false,
      Bool.false_eq_true,
      set_uirs_same, set_uirs_set_uirs, set_uirs_hartid_base, Nat.lor_assoc, Nat.or_self,
      raised_harts, irq_raises_send, List.map_singleton, hk, List.cons_append,
      List.nil_append, irq_raises, List.map_cons, List.map_nil, and_self]

/-- C9 witness: bit 5 sent twice to slot 0 of a four-line controller, target hart 3. -/
theorem send_twice_same_state_two_raises_witness :
    ((uintc_narrow_hart3.uirs 0).mode.testBit 0 = true ∧
      cpu_env (host_harts 4) (uintc_narrow_hart3.uirs 0).hartid = true ∧
      uintc_narrow_hart3.hartid_base ≤ (uintc_narrow_hart3.uirs 0).hartid ∧
      (uintc_narrow_hart3.uirs 0).hartid
        < uintc_narrow_hart3.hartid_base + uintc_narrow_hart3.num_harts) ∧
    (riscv_uintc_write (host_harts 4)
        (riscv_uintc_write (host_harts 4) uintc_narrow_hart3
          ((0 : Fin 512).val * 32 + UINTC_SEND) 5 8).1
        ((0 : Fin 512).val * 32 + UINTC_SEND) 5 8).1
      = (riscv_uintc_write (host_harts 4) uintc_narrow_hart3
          ((0 : Fin 512).val * 32 + UINTC_SEND) 5 8).1 ∧
    raised_harts uintc_narrow_hart3
        (run_writes (host_harts 4) 8 uintc_narrow_hart3
          [((0 : Fin 512).val * 32 + UINTC_SEND, 5), ((0 : Fin 512).val * 32 + UINTC_SEND, 5)]).2
      = [some (uintc_narrow_hart3.uirs 0).hartid, some (uintc_narrow_hart3.uirs 0).hartid] :=
  have h := send_twice_same_state_two_raises (host_harts 4) uintc_narrow_hart3 0 5 8
    (by decide) (by decide) (by decide) (by decide) (by decide)
  ⟨by decide, h.1, h.2.2.2⟩

/-! ## C10: invalid registers inside the register file -/

/-- C10. For every address `a` that passes the range test, with `r = a & 0x1f`:
(1) a read returns 0 when `r` is none of 0x08, 0x10, 0x18 and, if `r = 0x14`, the slot is
Wide; (2) a write of any value returns the device state unchanged and raises no line when
`r` is none of 0x00, 0x08, 0x10, 0x18 and, if `r = 0x14`, the slot is Narrow. -/
theorem invalid_register_policy (host : Host) (uintc : RISCVUintcState) (a value size : Nat)
    (h : a < RISCV_UINTC_MAX_HARTS <<< 5) :
    ((a &&& 0x1f ≠ 0x08 ∧ a &&& 0x1f ≠ 0x10 ∧ a &&& 0x1f ≠ 0x18 ∧
        (a &&& 0x1f = 0x14 → (uintc.uirs (slot_index a h)).mode.testBit 1 = true)) →
      (riscv_uintc_read uintc a size).1 = 0) ∧
    ((a &&& 0x1f ≠ 0x00 ∧ a &&& 0x1f ≠ 0x08 ∧ a &&& 0x1f ≠ 0x10 ∧ a &&& 0x1f ≠ 0x18 ∧
        (a &&& 0x1f = 0x14 → (uintc.uirs (slot_index a h)).mode.testBit 1 = false)) →
      (riscv_uintc_write host uintc a value size).1 = uintc ∧
      irq_raises (riscv_uintc_write host uintc a value size).2 = []) := by
  constructor
  · rintro ⟨h1, h2, h3, h4⟩
    unfold riscv_uintc_read
    rw [dif_pos h]
    simp only [UINTC_READ_LOW, UINTC_READ_HIGH, UINTC_GET_ACTIVE, if_neg h1, if_neg h2,
      if_neg h3]
    by_cases h5 : a &&& 0x1f = 0x14
    · have h6 : ¬ ((uintc.uirs (slot_index a h)).mode &&& 0x2 = 0) := by
        have h7 := (and_two_ne_zero_iff (uintc.uirs (slot_index a h)).mode).2 (h4 h5)
        exact h7
      rw [if_pos h5, if_neg h6]
    · rw [if_neg h5]
      split <;> rfl
  · rintro ⟨h0, h1, h2, h3, h4⟩
    unfold riscv_uintc_write
    rw [dif_pos h]
    simp only [UINTC_SEND, UINTC_WRITE_LOW, UINTC_WRITE_HIGH, UINTC_SET_ACTIVE, if_neg h0,
      if_neg h1, if_neg h2, if_neg h3]
    by_cases h5 : a &&& 0x1f = 0x14
    · have h6 : ¬ ((uintc.uirs (slot_index a h)).mode &&& 0x2 ≠ 0) := by
        intro h7
        have h8 := (and_two_ne_zero_iff (uintc.uirs (slot_index a h)).mode).1 h7
        rw [h4 h5] at h8
        exact Bool.false_ne_true h8
      rw [if_pos h5, if_neg h6]
      exact ⟨rfl, rfl⟩
    · rw [if_neg h5]
      split <;> exact ⟨rfl, rfl⟩

/-- C10 witness: offset 0x0c of slot 1 (the high half of LOW) reads 0 and drops writes. -/
theorem invalid_register_policy_witness :
    (riscv_uintc_read uintc_narrow_hart3 0x2c 8).1 = 0 ∧
    (riscv_uintc_write (host_harts 4) uintc_narrow_hart3 0x2c 7 8).1 = uintc_narrow_hart3 ∧
    irq_raises (riscv_uintc_write (host_harts 4) uintc_narrow_hart3 0x2c 7 8).2 = [] :=
  have h := invalid_register_policy (host_harts 4) uintc_narrow_hart3 0x2c 7 8 (by decide)
  ⟨h.1 (by decide), h.2 (by decide)⟩

/-! ## Further register lemmas -/

theorem read_high4_eq (uintc : RISCVUintcState) (i : Fin RISCV_UINTC_MAX_HARTS) (size : Nat) :
    riscv_uintc_read uintc (i.val * 32 + (UINTC_READ_HIGH + 4)) size =
      if (uintc.uirs i).mode.testBit 1 = true then
        (0, [Event.log_read (i.val * 32 + (UINTC_READ_HIGH + 4)),
          Event.invalid_read (i.val * 32 + (UINTC_READ_HIGH + 4))])
      else
        (((uintc.uirs i).pending1 >>> 32) % 2 ^ 32,
          [Event.log_read (i.val * 32 + (UINTC_READ_HIGH + 4))]) := by
  have hlt := addr_in_range i (UINTC_READ_HIGH + 4) (by decide)
  have h2 : ∀ m : Nat, m &&& 0x2 = 0 ↔ ¬ (m.testBit 1 = true) := by
    intro m
    rw [← and_two_ne_zero_iff]
    exact not_not.symm
  unfold riscv_uintc_read
  rw [dif_pos hlt]
  simp only [slot_index_slot i (UINTC_READ_HIGH + 4) (by decide) hlt,
    reg_slot i (UINTC_READ_HIGH + 4) (by decide), h2]
  by_cases h3 : (uintc.uirs i).mode.testBit 1 = true <;>
    simp [h3, UINTC_READ_LOW, UINTC_READ_HIGH, UINTC_GET_ACTIVE]

/-! ## C11: HIGH round trip in Narrow width -/

/-- C11. For every slot `i` whose width bit (mode bit 1) is clear and every value `v`, a
HIGH read after a write of `v` to HIGH returns `v mod 2 ^ 32`, whatever `pending1` holds;
the write leaves `pending1` as it was. -/
theorem high_narrow_roundtrip (host : Host) (uintc : RISCVUintcState)
    (i : Fin RISCV_UINTC_MAX_HARTS) (v size : Nat)
    (hnarrow : (uintc.uirs i).mode.testBit 1 = false) :
    (riscv_uintc_read
        (riscv_uintc_write host uintc (i.val * 32 + UINTC_WRITE_HIGH) v size).1
        (i.val * 32 + UINTC_READ_HIGH) size).1 = v % 2 ^ 32 ∧
    ((riscv_uintc_write host uintc (i.val * 32 + UINTC_WRITE_HIGH) v size).1.uirs i).pending1
      = (uintc.uirs i).pending1 := by
  simp only [write_high_eq, hnarrow, Bool.false_eq_true, if_false, read_high_eq, set_uirs_same,
    Nat.mod_mod, and_self]

/-- C11 witness: slot 0 in Narrow width holding a nonzero `pending1`; `v` has bits above
bit 31. -/
theorem high_narrow_roundtrip_witness :
    (uintc_narrow_hart3_high.uirs 0).mode.testBit 1 = false ∧
    (riscv_uintc_read
        (riscv_uintc_write (host_harts 4) uintc_narrow_hart3_high
          ((0 : Fin 512).val * 32 + UINTC_WRITE_HIGH) 0x1234567890 8).1
        ((0 : Fin 512).val * 32 + UINTC_READ_HIGH) 8).1 = 0x1234567890 % 2 ^ 32 :=
  ⟨by decide,
    (high_narrow_roundtrip (host_harts 4) uintc_narrow_hart3_high 0 0x1234567890 8
      (by decide)).1⟩

/-! ## C12: read of the high half of HIGH -/

/-- C12. For every slot `i`, a read at offset 0x14 returns bits 32-63 of `pending1` (a 32-bit
value) when the width bit is clear, and returns 0, logged as an invalid read, when the
width bit is set, whatever `pending1` holds. -/
theorem high4_read_asymmetry (uintc : RISCVUintcState) (i : Fin RISCV_UINTC_MAX_HARTS)
    (size : Nat) :
    ((uintc.uirs i).mode.testBit 1 = false →
      (riscv_uintc_read uintc (i.val * 32 + 0x14) size).1
          = ((uintc.uirs i).pending1 >>> 32) % 2 ^ 32 ∧
      (∀ k, (riscv_uintc_read uintc (i.val * 32 + 0x14) size).1.testBit k
          = (decide (k < 32) && (uintc.uirs i).pending1.testBit (32 + k)))) ∧
    ((uintc.uirs i).mode.testBit 1 = true →
      riscv_uintc_read uintc (i.val * 32 + 0x14) size
          = (0, [Event.log_read (i.val * 32 + 0x14), Event.invalid_read (i.val * 32 + 0x14)])) := by
  have e := read_high4_eq uintc i size
  have e14 : UINTC_READ_HIGH + 4 = 0x14 := rfl
  rw [e14] at e
  constructor
  · intro hn
    rw [e, hn]
    simp only [Bool.false_eq_true, if_false, true_and]
    intro k
    rw [Nat.testBit_mod_two_pow, Nat.testBit_shiftRight]
  · intro hw
    rw [e, hw]
    simp

/-- C12 witness: the same `pending1 = 2 ^ 32` read at 0x14 in a Narrow and in a Wide slot. -/
theorem high4_read_asymmetry_witness :
    ((uintc_narrow_hart3_high.uirs 0).mode.testBit 1 = false ∧
      (riscv_uintc_read uintc_narrow_hart3_high ((0 : Fin 512).val * 32 + 0x14) 8).1
        = ((uintc_narrow_hart3_high.uirs 0).pending1 >>> 32) % 2 ^ 32) ∧
    ((uintc_wide_hart3.uirs 0).mode.testBit 1 = true ∧
      riscv_uintc_read uintc_wide_hart3 ((0 : Fin 512).val * 32 + 0x14) 8
        = (0, [Event.log_read ((0 : Fin 512).val * 32 + 0x14),
            Event.invalid_read ((0 : Fin 512).val * 32 + 0x14)])) :=
  ⟨⟨by decide, ((high4_read_asymmetry uintc_narrow_hart3_high 0 8).1 (by decide)).1⟩,
    ⟨by decide, (high4_read_asymmetry uintc_wide_hart3 0 8).2 (by decide)⟩⟩

/-! ## Reads look at one slot -/

theorem and_1f_eq_mod (a : Nat) : a &&& 0x1f = a % 32 := by
  have h1 := Nat.and_pow_two_sub_one_eq_mod a 5
  simp only [Nat.reducePow, Nat.add_one_sub_one] at h1
  exact h1

theorem slot_index_val (a : Nat) (h : a < RISCV_UINTC_MAX_HARTS <<< 5) :
    (slot_index a h).val = a >>> 5 := by
  have h1 : a < 16384 := h
  show (a >>> 5) % 2 ^ 16 = a >>> 5
  rw [Nat.shiftRight_eq_div_pow]
  omega

/-- An address that passed the range test is the register `a & 0x1f` of slot `a >> 5`. -/
theorem addr_eq_slot_reg (a : Nat) (h : a < RISCV_UINTC_MAX_HARTS <<< 5) :
    a = (slot_index a h).val * 32 + (a &&& 0x1f) := by
  rw [slot_index_val, and_1f_eq_mod, Nat.shiftRight_eq_div_pow]
  omega

/-- The result of a read (value and events) is determined by the addressed slot. -/
theorem read_eq_of_slot_eq (u1 u2 : RISCVUintcState) (a size : Nat)
    (h : ∀ hlt : a < RISCV_UINTC_MAX_HARTS <<< 5,
      u1.uirs (slot_index a hlt) = u2.uirs (slot_index a hlt)) :
    riscv_uintc_read u1 a size = riscv_uintc_read u2 a size := by
  unfold riscv_uintc_read
  by_cases hlt : a < RISCV_UINTC_MAX_HARTS <<< 5
  · rw [dif_pos hlt, dif_pos hlt]
    simp only [h hlt]
  · rw [dif_neg hlt, dif_neg hlt]

/-- A read whose result does not change when `pending1` of the addressed slot changes:
every register but HIGH in Wide width and HIGH+4 in Narrow width. -/
theorem read_ignores_pending1 (uintc : RISCVUintcState) (i : Fin RISCV_UINTC_MAX_HARTS)
    (p a size : Nat) (hnarrow : (uintc.uirs i).mode.testBit 1 = false)
    (ha : a ≠ i.val * 32 + 0x14) :
    riscv_uintc_read (set_uirs uintc i { uintc.uirs i with pending1 := p }) a size
      = riscv_uintc_read uintc a size := by
  by_cases hlt : a < RISCV_UINTC_MAX_HARTS <<< 5
  · by_cases hi : slot_index a hlt = i
    · have hreg : a &&& 0x1f ≠ 0x14 := by
        intro h14
        apply ha
        have e := addr_eq_slot_reg a hlt
        rw [hi, h14] at e
        exact e
      have hn2 : ¬ ((uintc.uirs i).mode &&& 0x2 ≠ 0) := by
        rw [and_two_ne_zero_iff, hnarrow]
        exact Bool.false_ne_true
      unfold riscv_uintc_read
      rw [dif_pos hlt, dif_pos hlt]
      simp only [hi, set_uirs_same, UINTC_READ_LOW, UINTC_READ_HIGH, UINTC_GET_ACTIVE, hn2,
        if_false, if_neg hreg]
    · apply read_eq_of_slot_eq
      intro hlt2
      exact set_uirs_other uintc i _ _ hi
  · apply read_eq_of_slot_eq
    intro hlt2
    exact absurd hlt2 hlt

/-- In Wide width no read looks at `pending0`. -/
theorem read_ignores_pending0 (uintc : RISCVUintcState) (i : Fin RISCV_UINTC_MAX_HARTS)
    (p a size : Nat) (hwide : (uintc.uirs i).mode.testBit 1 = true) :
    riscv_uintc_read (set_uirs uintc i { uintc.uirs i with pending0 := p }) a size
      = riscv_uintc_read uintc a size := by
  by_cases hlt : a < RISCV_UINTC_MAX_HARTS <<< 5
  · by_cases hi : slot_index a hlt = i
    · have hw2 : (uintc.uirs i).mode &&& 0x2 ≠ 0 := (and_two_ne_zero_iff _).2 hwide
      unfold riscv_uintc_read
      rw [dif_pos hlt, dif_pos hlt]
      simp only [hi, set_uirs_same, UINTC_READ_LOW, UINTC_READ_HIGH, UINTC_GET_ACTIVE,
        if_pos hw2]
    · apply read_eq_of_slot_eq
      intro hlt2
      exact set_uirs_other uintc i _ _ hi
  · apply read_eq_of_slot_eq
    intro hlt2
    exact absurd hlt2 hlt

/-! ## C13: which pending field a read can see -/

/-- C13 (as stated, refuted). The states `uintc_narrow_hart3` and `uintc_narrow_hart3_high`
are equal except for `pending1` of slot 0, whose width is Narrow, and a read at offset 0x14
of slot 0 returns 0 in the first and 1 in the second. -/
theorem narrow_read_sees_pending1 :
    (uintc_narrow_hart3.uirs 0).mode.testBit 1 = false ∧
    uintc_narrow_hart3_high
      = set_uirs uintc_narrow_hart3 0 { uintc_narrow_hart3.uirs 0 with pending1 := 0x100000000 } ∧
    (riscv_uintc_read uintc_narrow_hart3 (0 * 32 + 0x14) 8).1 = 0 ∧
    (riscv_uintc_read uintc_narrow_hart3_high (0 * 32 + 0x14) 8).1 = 1 ∧
    (riscv_uintc_read uintc_narrow_hart3 (0 * 32 + 0x14) 8).1
      ≠ (riscv_uintc_read uintc_narrow_hart3_high (0 * 32 + 0x14) 8).1 :=
  ⟨by decide, rfl, by decide, by decide, by decide⟩

/-- C13 (amended). For every slot `i`, every replacement value `p` and every read address
`a` (in any slot, in range or not): if slot `i` is Narrow, replacing its `pending1` by `p`
changes the result of no read except the one at offset 0x14 of slot `i`, which returns bits
32-63 of the new `pending1`; if slot `i` is Wide, replacing its `pending0` by `p` changes
the result of no read at all. -/
theorem read_sees_nonlive_pending_only_at_high4 (uintc : RISCVUintcState)
    (i : Fin RISCV_UINTC_MAX_HARTS) (p a size : Nat) :
    ((uintc.uirs i).mode.testBit 1 = false → a ≠ i.val * 32 + 0x14 →
      riscv_uintc_read (set_uirs uintc i { uintc.uirs i with pending1 := p }) a size
        = riscv_uintc_read uintc a size) ∧
    ((uintc.uirs i).mode.testBit 1 = false →
      (riscv_uintc_read (set_uirs uintc i { uintc.uirs i with pending1 := p })
          (i.val * 32 + 0x14) size).1 = (p >>> 32) % 2 ^ 32) ∧
    ((uintc.uirs i).mode.testBit 1 = true →
      riscv_uintc_read (set_uirs uintc i { uintc.uirs i with pending0 := p }) a size
        = riscv_uintc_read uintc a size) := by
  refine ⟨fun hn ha => read_ignores_pending1 uintc i p a size hn ha, ?_,
    fun hw => read_ignores_pending0 uintc i p a size hw⟩
  intro hn
  have e := read_high4_eq (set_uirs uintc i { uintc.uirs i with pending1 := p }) i size
  have e14 : UINTC_READ_HIGH + 4 = 0x14 := rfl
  rw [e14] at e
  rw [e, set_uirs_same]
  simp only [hn, Bool.false_eq_true, if_false]

/-- C13 witness: on the Narrow slot 0 a HIGH read is blind to `pending1` and the read at
0x14 returns its upper half; on the Wide slot 0 a HIGH read is blind to `pending0`. -/
theorem read_sees_nonlive_pending_only_at_high4_witness :
    ((uintc_narrow_hart3.uirs 0).mode.testBit 1 = false ∧
      0x10 ≠ (0 : Fin 512).val * 32 + 0x14 ∧
      riscv_uintc_read
          (set_uirs uintc_narrow_hart3 0 { uintc_narrow_hart3.uirs 0 with pending1 := 2 ^ 40 })
          0x10 8
        = riscv_uintc_read uintc_narrow_hart3 0x10 8) ∧
    (riscv_uintc_read
        (set_uirs uintc_narrow_hart3 0 { uintc_narrow_hart3.uirs 0 with pending1 := 2 ^ 40 })
        ((0 : Fin 512).val * 32 + 0x14) 8).1 = (2 ^ 40 >>> 32) % 2 ^ 32 ∧
    ((uintc_wide_hart3.uirs 0).mode.testBit 1 = true ∧
      riscv_uintc_read
          (set_uirs uintc_wide_hart3 0 { uintc_wide_hart3.uirs 0 with pending0 := 7 }) 0x10 8
        = riscv_uintc_read uintc_wide_hart3 0x10 8) :=
  ⟨⟨by decide, by decide,
      (read_sees_nonlive_pending_only_at_high4 uintc_narrow_hart3 0 (2 ^ 40) 0x10 8).1
        (by decide) (by decide)⟩,
    (read_sees_nonlive_pending_only_at_high4 uintc_narrow_hart3 0 (2 ^ 40) 0x10 8).2.1
      (by decide),
    ⟨by decide,
      (read_sees_nonlive_pending_only_at_high4 uintc_wide_hart3 0 7 0x10 8).2.2 (by decide)⟩⟩

/-! ## Frame lemmas for writes -/

/-- A write leaves every slot other than the addressed one as it was. -/
theorem write_other_slot (host : Host) (uintc : RISCVUintcState) (a value size : Nat)
    (h : a < RISCV_UINTC_MAX_HARTS <<< 5) (j : Fin RISCV_UINTC_MAX_HARTS)
    (hj : j ≠ slot_index a h) :
    (riscv_uintc_write host uintc a value size).1.uirs j = uintc.uirs j := by
  unfold riscv_uintc_write
  rw [dif_pos h]
  dsimp only
  split_ifs <;> first | rfl | exact set_uirs_other uintc _ j _ hj

/-- A write outside the register file leaves the state as it was. -/
theorem write_out_of_range (host : Host) (uintc : RISCVUintcState) (a value size : Nat)
    (h : ¬ a < RISCV_UINTC_MAX_HARTS <<< 5) :
    (riscv_uintc_write host uintc a value size).1 = uintc := by
  unfold riscv_uintc_write
  rw [dif_neg h]

/-- No write changes the configuration fields `hartid_base` and `num_harts`. -/
theorem write_config (host : Host) (uintc : RISCVUintcState) (a value size : Nat) :
    (riscv_uintc_write host uintc a value size).1.hartid_base = uintc.hartid_base ∧
    (riscv_uintc_write host uintc a value size).1.num_harts = uintc.num_harts := by
  unfold riscv_uintc_write
  by_cases h : a < RISCV_UINTC_MAX_HARTS <<< 5
  · rw [dif_pos h]
    dsimp only
    split_ifs <;> exact ⟨rfl, rfl⟩
  · rw [dif_neg h]
    exact ⟨rfl, rfl⟩

/-- While slot `i` is Narrow no write, at any address, changes its `pending1`. -/
theorem write_keeps_pending1_narrow (host : Host) (uintc : RISCVUintcState)
    (i : Fin RISCV_UINTC_MAX_HARTS) (a value size : Nat)
    (hnarrow : (uintc.uirs i).mode.testBit 1 = false) :
    ((riscv_uintc_write host uintc a value size).1.uirs i).pending1
      = (uintc.uirs i).pending1 := by
  by_cases h : a < RISCV_UINTC_MAX_HARTS <<< 5
  · by_cases hi : i = slot_index a h
    · have hn2 : ¬ ((uintc.uirs (slot_index a h)).mode &&& 0x2 ≠ 0) := by
        rw [and_two_ne_zero_iff, ← hi, hnarrow]
        exact Bool.false_ne_true
      unfold riscv_uintc_write
      rw [dif_pos h]
      simp only [if_neg hn2]
      rw [hi]
      split_ifs <;> first | rfl | rw [set_uirs_same]
    · rw [write_other_slot host uintc a value size h i hi]
  · rw [write_out_of_range host uintc a value size h]

/-- While slot `i` is Wide no write, at any address, changes its `pending0`. -/
theorem write_keeps_pending0_wide (host : Host) (uintc : RISCVUintcState)
    (i : Fin RISCV_UINTC_MAX_HARTS) (a value size : Nat)
    (hwide : (uintc.uirs i).mode.testBit 1 = true) :
    ((riscv_uintc_write host uintc a value size).1.uirs i).pending0
      = (uintc.uirs i).pending0 := by
  by_cases h : a < RISCV_UINTC_MAX_HARTS <<< 5
  · by_cases hi : i = slot_index a h
    · have hw2 : (uintc.uirs (slot_index a h)).mode &&& 0x2 ≠ 0 := by
        rw [and_two_ne_zero_iff, ← hi, hwide]
      unfold riscv_uintc_write
      rw [dif_pos h]
      simp only [if_pos hw2]
      rw [hi]
      split_ifs <;> first | rfl | rw [set_uirs_same]
    · rw [write_other_slot host uintc a value size h i hi]
  · rw [write_out_of_range host uintc a value size h]

/-- Only a LOW write to slot `i` can change the width bit of slot `i`. -/
theorem write_keeps_width (host : Host) (uintc : RISCVUintcState)
    (i : Fin RISCV_UINTC_MAX_HARTS) (a value size : Nat)
    (ha : a ≠ i.val * 32 + UINTC_WRITE_LOW) :
    ((riscv_uintc_write host uintc a value size).1.uirs i).mode.testBit 1
      = (uintc.uirs i).mode.testBit 1 := by
  by_cases h : a < RISCV_UINTC_MAX_HARTS <<< 5
  · by_cases hi : i = slot_index a h
    · have hreg : ¬ (a &&& 0x1f = UINTC_WRITE_LOW) := by
        intro h8
        apply ha
        have e := addr_eq_slot_reg a h
        rw [← hi, h8] at e
        exact e
      unfold riscv_uintc_write
      rw [dif_pos h]
      simp only [if_neg hreg]
      rw [hi]
      split_ifs <;>
        first
        | rfl
        | (rw [set_uirs_same]; exact (set_active_bits _).2.1)
        | (rw [set_uirs_same]; exact (set_active_bits _).2.2.2)
        | rw [set_uirs_same]
    · rw [write_other_slot host uintc a value size h i hi]
  · rw [write_out_of_range host uintc a value size h]

/-- A sequence of writes without a LOW write to slot `i`, started while slot `i` is Narrow,
leaves slot `i` Narrow and its `pending1` as it was. -/
theorem run_writes_narrow_keeps_pending1 (host : Host) (size : Nat)
    (i : Fin RISCV_UINTC_MAX_HARTS) (ws : List (Nat × Nat))
    (hws : ∀ w ∈ ws, w.1 ≠ i.val * 32 + UINTC_WRITE_LOW) (uintc : RISCVUintcState)
    (hnarrow : (uintc.uirs i).mode.testBit 1 = false) :
    ((run_writes host size uintc ws).1.uirs i).mode.testBit 1 = false ∧
    ((run_writes host size uintc ws).1.uirs i).pending1 = (uintc.uirs i).pending1 := by
  induction ws generalizing uintc with
  | nil => exact ⟨hnarrow, rfl⟩
  | cons w ws ih =>
    obtain ⟨a, v⟩ := w
    have ha : a ≠ i.val * 32 + UINTC_WRITE_LOW := hws (a, v) (List.mem_cons_self _ _)
    have hn1 : ((riscv_uintc_write host uintc a v size).1.uirs i).mode.testBit 1 = false := by
      rw [write_keeps_width host uintc i a v size ha]
      exact hnarrow
    have h1 := ih (fun w hw => hws w (List.mem_cons_of_mem _ hw))
      (riscv_uintc_write host uintc a v size).1 hn1
    simp only [run_writes]
    exact ⟨h1.1, h1.2.trans (write_keeps_pending1_narrow host uintc i a v size hnarrow)⟩

/-! ## C14: the pending field that is not live is retained -/

/-- C14. For every slot `i`: (1) while slot `i` is Narrow no write (any address, any value,
sends included) changes its `pending1`; (2) while it is Wide none changes its `pending0`;
(3) LOW and ACTIVE writes to slot `i` change neither field; (4) if slot `i` is Wide and `V`
is written to HIGH, then a LOW write with bit 1 clear, then any sequence of writes that
contains no LOW write to slot `i` (so any sequence of SEND, HIGH, HIGH+4 and ACTIVE writes
to slot `i`), then a LOW write with bit 1 set, a HIGH read returns `V`. -/
theorem nonlive_pending_retained (host : Host) (i : Fin RISCV_UINTC_MAX_HARTS) (size : Nat) :
    (∀ (u : RISCVUintcState) (a v : Nat), (u.uirs i).mode.testBit 1 = false →
      ((riscv_uintc_write host u a v size).1.uirs i).pending1 = (u.uirs i).pending1) ∧
    (∀ (u : RISCVUintcState) (a v : Nat), (u.uirs i).mode.testBit 1 = true →
      ((riscv_uintc_write host u a v size).1.uirs i).pending0 = (u.uirs i).pending0) ∧
    (∀ (u : RISCVUintcState) (v : Nat),
      ((riscv_uintc_write host u (i.val * 32 + UINTC_WRITE_LOW) v size).1.uirs i).pending0
        = (u.uirs i).pending0 ∧
      ((riscv_uintc_write host u (i.val * 32 + UINTC_WRITE_LOW) v size).1.uirs i).pending1
        = (u.uirs i).pending1 ∧
      ((riscv_uintc_write host u (i.val * 32 + UINTC_SET_ACTIVE) v size).1.uirs i).pending0
        = (u.uirs i).pending0 ∧
      ((riscv_uintc_write host u (i.val * 32 + UINTC_SET_ACTIVE) v size).1.uirs i).pending1
        = (u.uirs i).pending1) ∧
    (∀ (u : RISCVUintcState) (V L1 L2 : Nat) (ws : List (Nat × Nat)),
      (u.uirs i).mode.testBit 1 = true → L1.testBit 1 = false → L2.testBit 1 = true →
      (∀ w ∈ ws, w.1 ≠ i.val * 32 + UINTC_WRITE_LOW) →
      (riscv_uintc_read
        (riscv_uintc_write host
          (run_writes host size
            (riscv_uintc_write host
              (riscv_uintc_write host u (i.val * 32 + UINTC_WRITE_HIGH) V size).1
              (i.val * 32 + UINTC_WRITE_LOW) L1 size).1
            ws).1
          (i.val * 32 + UINTC_WRITE_LOW) L2 size).1
        (i.val * 32 + UINTC_READ_HIGH) size).1 = V) := by
  refine ⟨fun u a v hn => write_keeps_pending1_narrow host u i a v size hn,
    fun u a v hw => write_keeps_pending0_wide host u i a v size hw, ?_, ?_⟩
  · intro u v
    rw [write_low_eq, write_active_eq]
    by_cases hv : v ≠ 0 <;> simp [hv, set_uirs_same]
  · intro u V L1 L2 ws hw hL1 hL2 hws
    have hbit : ∀ L : Nat, ((L &&& 0x3) % 2 ^ 16).testBit 1 = L.testBit 1 := by
      intro L
      rw [and_three_mod, Nat.testBit_land, testBit_mask2]
      simp
    have h1 : ((riscv_uintc_write host u (i.val * 32 + UINTC_WRITE_HIGH) V size).1.uirs i).pending1
        = V := by
      rw [write_high_eq, if_pos hw, set_uirs_same]
    have h2n : ((riscv_uintc_write host
          (riscv_uintc_write host u (i.val * 32 + UINTC_WRITE_HIGH) V size).1
          (i.val * 32 + UINTC_WRITE_LOW) L1 size).1.uirs i).mode.testBit 1 = false := by
      rw [write_low_eq, set_uirs_same]
      exact (hbit L1).trans hL1
    have h2p : ((riscv_uintc_write host
          (riscv_uintc_write host u (i.val * 32 + UINTC_WRITE_HIGH) V size).1
          (i.val * 32 + UINTC_WRITE_LOW) L1 size).1.uirs i).pending1 = V := by
      rw [write_low_eq, set_uirs_same]
      exact h1
    have h3 := run_writes_narrow_keeps_pending1 host size i ws hws _ h2n
    rw [read_high_eq, write_low_eq, set_uirs_same]
    have h4 : ((L2 &&& 0x3) % 2 ^ 16).testBit 1 = true := (hbit L2).trans hL2
    simp only [h4, if_true]
    exact h3.2.trans h2p

/-- C14 witness: `V = 0xdeadbeefcafe` written to HIGH of the Wide slot 0 survives a stay in
Narrow width with a send, a HIGH write, a HIGH+4 write and two ACTIVE writes. -/
theorem nonlive_pending_retained_witness :
    ((uintc_wide_hart3.uirs 0).mode.testBit 1 = true ∧ (0x30001 : Nat).testBit 1 = false ∧
      (0x30003 : Nat).testBit 1 = true ∧
      (∀ w ∈ [((0 : Nat), (5 : Nat)), (0x10, 7), (0x14, 9), (0x18, 0), (0x18, 1)],
        w.1 ≠ (0 : Fin 512).val * 32 + UINTC_WRITE_LOW)) ∧
    (riscv_uintc_read
      (riscv_uintc_write (host_harts 4)
        (run_writes (host_harts 4) 8
          (riscv_uintc_write (host_harts 4)
            (riscv_uintc_write (host_harts 4) uintc_wide_hart3
              ((0 : Fin 512).val * 32 + UINTC_WRITE_HIGH) 0xdeadbeefcafe 8).1
            ((0 : Fin 512).val * 32 + UINTC_WRITE_LOW) 0x30001 8).1
          [(0, 5), (0x10, 7), (0x14, 9), (0x18, 0), (0x18, 1)]).1
        ((0 : Fin 512).val * 32 + UINTC_WRITE_LOW) 0x30003 8).1
      ((0 : Fin 512).val * 32 + UINTC_READ_HIGH) 8).1 = 0xdeadbeefcafe :=
  ⟨by decide,
    (nonlive_pending_retained (host_harts 4) 0 8).2.2.2 uintc_wide_hart3 0xdeadbeefcafe
      0x30001 0x30003 [(0, 5), (0x10, 7), (0x14, 9), (0x18, 0), (0x18, 1)]
      (by decide) (by decide) (by decide) (by decide)⟩

/-! ## C15: the index of the raised line -/

/-- The index passed to `soft_irqs` by a send is inside the array exactly when the target
hart is one of the harts `hartid_base .. hartid_base + num_harts - 1` (for `uint32_t`
configuration values whose hart range does not wrap around, and a `uint16_t` target). -/
theorem send_index_in_range_iff (uintc : RISCVUintcState) (hartid : Nat)
    (h16 : hartid < 2 ^ 16) (hbase : uintc.hartid_base < 2 ^ 32)
    (hnum : uintc.num_harts ≤ RISCV_UINTC_MAX_HARTS)
    (hwrap : uintc.hartid_base + uintc.num_harts ≤ 2 ^ 32) :
    sub_uint32 hartid uintc.hartid_base < uintc.num_harts ↔
      (uintc.hartid_base ≤ hartid ∧ hartid < uintc.hartid_base + uintc.num_harts) := by
  have hnum2 : uintc.num_harts ≤ 512 := hnum
  have h16b : hartid < 65536 := h16
  have hbase2 : uintc.hartid_base < 4294967296 := hbase
  unfold sub_uint32
  rw [Nat.mod_eq_of_lt hbase]
  by_cases hle : uintc.hartid_base ≤ hartid
  · have e : (hartid + 2 ^ 32 - uintc.hartid_base) % 2 ^ 32 = hartid - uintc.hartid_base := by
      omega
    rw [e]
    omega
  · have e : (hartid + 2 ^ 32 - uintc.hartid_base) % 2 ^ 32
        = hartid + 4294967296 - uintc.hartid_base := by
      omega
    rw [e]
    omega

/-- C15 (the code at the failing input). The controller has `hartid_base = 2` and
`num_harts = 2`; slot 0 is active and targets hart 0, which the hart lookup of the four-hart
machine resolves. A send to slot 0 raises a line, and the index passed to `soft_irqs` is
`0 - 2` as a `uint32_t`, 4294967294, not below `num_harts = 2`: no entry of `soft_irqs`. -/
theorem send_index_outside_soft_irqs :
    (uintc_base2_hart0.uirs 0).mode.testBit 0 = true ∧
    cpu_env (host_harts 4) (uintc_base2_hart0.uirs 0).hartid = true ∧
    irq_raises (riscv_uintc_write (host_harts 4) uintc_base2_hart0 (0 * 32 + UINTC_SEND) 0 8).2
      = [4294967294] ∧
    ¬ (4294967294 < uintc_base2_hart0.num_harts) ∧
    soft_irq_hart uintc_base2_hart0 4294967294 = none := by
  decide

/-! ## C16: end-to-end scenario -/

/-- C16. On every host that resolves hart 3, for every controller whose lines cover hart 3
(`hartid_base ≤ 3 < hartid_base + num_harts`), starting from the state built by
`riscv_uintc_realize`: after writing `0x30001` to LOW of slot 0 and 5 to SEND of slot 0 a
HIGH read of slot 0 returns `0x20` and the line of hart 3 has been raised exactly once;
after then writing 0 to ACTIVE and 6 to SEND of slot 0 the HIGH read still returns `0x20`,
that last send raised no line, and over the four writes the line of hart 3 was raised once. -/
theorem scenario_send_then_deactivate (host : Host) (hartid_base num_harts size : Nat)
    (hres : cpu_env host 3 = true) (hlo : hartid_base ≤ 3)
    (hhi : 3 < hartid_base + num_harts) :
    (riscv_uintc_read
        (run_writes host size (riscv_uintc_realize hartid_base num_harts)
          [((0 : Fin 512).val * 32 + UINTC_WRITE_LOW, 0x30001),
            ((0 : Fin 512).val * 32 + UINTC_SEND, 5)]).1
        ((0 : Fin 512).val * 32 + UINTC_READ_HIGH) size).1 = 0x20 ∧
    raised_harts (riscv_uintc_realize hartid_base num_harts)
        (run_writes host size (riscv_uintc_realize hartid_base num_harts)
          [((0 : Fin 512).val * 32 + UINTC_WRITE_LOW, 0x30001),
            ((0 : Fin 512).val * 32 + UINTC_SEND, 5)]).2 = [some 3] ∧
    (riscv_uintc_read
        (run_writes host size (riscv_uintc_realize hartid_base num_harts)
          [((0 : Fin 512).val * 32 + UINTC_WRITE_LOW, 0x30001),
            ((0 : Fin 512).val * 32 + UINTC_SEND, 5),
            ((0 : Fin 512).val * 32 + UINTC_SET_ACTIVE, 0),
            ((0 : Fin 512).val * 32 + UINTC_SEND, 6)]).1
        ((0 : Fin 512).val * 32 + UINTC_READ_HIGH) size).1 = 0x20 ∧
    irq_raises
        (riscv_uintc_write host
          (run_writes host size (riscv_uintc_realize hartid_base num_harts)
            [((0 : Fin 512).val * 32 + UINTC_WRITE_LOW, 0x30001),
              ((0 : Fin 512).val * 32 + UINTC_SEND, 5),
              ((0 : Fin 512).val * 32 + UINTC_SET_ACTIVE, 0)]).1
          ((0 : Fin 512).val * 32 + UINTC_SEND) 6 size).2 = [] ∧
    raised_harts (riscv_uintc_realize hartid_base num_harts)
        (run_writes host size (riscv_uintc_realize hartid_base num_harts)
          [((0 : Fin 512).val * 32 + UINTC_WRITE_LOW, 0x30001),
            ((0 : Fin 512).val * 32 + UINTC_SEND, 5),
            ((0 : Fin 512).val * 32 + UINTC_SET_ACTIVE, 0),
            ((0 : Fin 512).val * 32 + UINTC_SEND, 6)]).2 = [some 3] := by
  have m0 : (1 : Nat).testBit 0 = true := by decide
  have m1 : (1 : Nat).testBit 1 = false := by decide
  have z0 : (0 : Nat).testBit 0 = false := by decide
  have z1 : (0 : Nat).testBit 1 = false := by decide
  have e1 : (riscv_uintc_write host (riscv_uintc_realize hartid_base num_harts)
      ((0 : Fin 512).val * 32 + UINTC_WRITE_LOW) 0x30001 size)
      = (set_uirs (riscv_uintc_realize hartid_base num_harts) 0
          { mode := 1, hartid := 3, pending0 := 0, pending1 := 0 },
        [Event.log_write ((0 : Fin 512).val * 32 + UINTC_WRITE_LOW) 0x30001]) := by
    rw [write_low_eq]
    rfl
  have e2 : (riscv_uintc_write host (set_uirs (riscv_uintc_realize hartid_base num_harts) 0
          { mode := 1, hartid := 3, pending0 := 0, pending1 := 0 })
      ((0 : Fin 512).val * 32 + UINTC_SEND) 5 size)
      = (set_uirs (riscv_uintc_realize hartid_base num_harts) 0
          { mode := 1, hartid := 3, pending0 := 0x20, pending1 := 0 },
        [Event.log_write ((0 : Fin 512).val * 32 + UINTC_SEND) 5, Event.log_ipi 3,
          Event.log_flush, Event.irq_raise (sub_uint32 3 hartid_base)]) := by
    rw [write_send_eq]
    simp only [set_uirs_same, hres, Bool.true_eq_false, if_false]
    simp only [m0, m1, if_true, Bool.false_eq_true, if_false, set_uirs_set_uirs,
      int_to_uint32_one_shl host 5 (by decide)]
    rfl
  have e3 : (riscv_uintc_write host (set_uirs (riscv_uintc_realize hartid_base num_harts) 0
          { mode := 1, hartid := 3, pending0 := 0x20, pending1 := 0 })
      ((0 : Fin 512).val * 32 + UINTC_SET_ACTIVE) 0 size)
      = (set_uirs (riscv_uintc_realize hartid_base num_harts) 0
          { mode := 0, hartid := 3, pending0 := 0x20, pending1 := 0 },
        [Event.log_write ((0 : Fin 512).val * 32 + UINTC_SET_ACTIVE) 0]) := by
    rw [write_active_eq]
    simp only [ne_eq, not_true_eq_false, if_false, set_uirs_same, set_uirs_set_uirs]
    rfl
  have e4 : (riscv_uintc_write host (set_uirs (riscv_uintc_realize hartid_base num_harts) 0
          { mode := 0, hartid := 3, pending0 := 0x20, pending1 := 0 })
      ((0 : Fin 512).val * 32 + UINTC_SEND) 6 size)
      = (set_uirs (riscv_uintc_realize hartid_base num_harts) 0
          { mode := 0, hartid := 3, pending0 := 0x20, pending1 := 0 },
        [Event.log_write ((0 : Fin 512).val * 32 + UINTC_SEND) 6]) := by
    rw [write_send_eq]
    simp only [set_uirs_same, hres, Bool.true_eq_false, if_false, z0, Bool.false_eq_true]
  have hk : soft_irq_hart (riscv_uintc_realize hartid_base num_harts)
      (sub_uint32 3 hartid_base) = some 3 :=
    soft_irq_hart_target (riscv_uintc_realize hartid_base num_harts) 3 (by decide) hlo hhi
  have h32 : 32 % 2 ^ 32 = 32 := by decide
  simp only [run_writes, e1, e2, e3, e4, read_high_eq, set_uirs_same, z1, m1,
    Bool.false_eq_true, if_false, List.append_nil, List.singleton_append, List.cons_append,
    List.nil_append, raised_harts, irq_raises, List.map_cons, List.map_nil, hk, h32,
    and_self]

/-- C16 witness: a four-hart machine with one controller for harts 0 to 3. -/
theorem scenario_send_then_deactivate_witness :
    (cpu_env (host_harts 4) 3 = true ∧ 0 ≤ 3 ∧ 3 < 0 + 4) ∧
    (riscv_uintc_read
        (run_writes (host_harts 4) 8 (riscv_uintc_realize 0 4)
          [((0 : Fin 512).val * 32 + UINTC_WRITE_LOW, 0x30001),
            ((0 : Fin 512).val * 32 + UINTC_SEND, 5)]).1
        ((0 : Fin 512).val * 32 + UINTC_READ_HIGH) 8).1 = 0x20 ∧
    raised_harts (riscv_uintc_realize 0 4)
        (run_writes (host_harts 4) 8 (riscv_uintc_realize 0 4)
          [((0 : Fin 512).val * 32 + UINTC_WRITE_LOW, 0x30001),
            ((0 : Fin 512).val * 32 + UINTC_SEND, 5)]).2 = [some 3] :=
  have h := scenario_send_then_deactivate (host_harts 4) 0 4 8 (by decide) (by decide)
    (by decide)
  ⟨by decide, h.1, h.2.1⟩

/-! ## C17: the pending update and the raise, in program order -/

/-- The events of the statement-by-statement reading are the events of
`riscv_uintc_write`. -/
theorem write_steps_events (host : Host) (uintc : RISCVUintcState) (a value size : Nat) :
    (riscv_uintc_write_steps host uintc a value size).map Prod.fst
      = (riscv_uintc_write host uintc a value size).2 := by
  unfold riscv_uintc_write_steps riscv_uintc_write
  by_cases h : a < RISCV_UINTC_MAX_HARTS <<< 5
  · rw [dif_pos h, dif_pos h]
    dsimp only
    split_ifs <;> simp [set_uirs_same, set_uirs_hartid_base]
  · rw [dif_neg h, dif_neg h]
    rfl

/-- Every `qemu_irq_raise` of a write happens in the state the write returns: the store to
the pending field precedes the raise and nothing is stored after it. -/
theorem raise_in_final_state (host : Host) (uintc : RISCVUintcState) (a value size : Nat)
    (k : Nat) (st : RISCVUintcState)
    (hmem : (Event.irq_raise k, st) ∈ riscv_uintc_write_steps host uintc a value size) :
    st = (riscv_uintc_write host uintc a value size).1 := by
  unfold riscv_uintc_write_steps at hmem
  unfold riscv_uintc_write
  by_cases h : a < RISCV_UINTC_MAX_HARTS <<< 5
  · rw [dif_pos h] at hmem
    rw [dif_pos h]
    dsimp only at hmem ⊢
    split_ifs at hmem ⊢ <;> simp at hmem
    all_goals exact hmem.2
  · rw [dif_neg h] at hmem
    simp at hmem

theorem int_to_uint64_one_shl_31 (host : Host) :
    int_to_uint64 (int_one_shl host 31) = 0xFFFFFFFF80000000 := by
  rw [int_one_shl_lt host 31 (by decide)]
  decide

/-- For a bit position `b ≤ 31`, in either width, the HIGH read of slot `i` in the state of
the raise has bit `b` set. -/
theorem raise_sees_sent_bit (host : Host) (uintc : RISCVUintcState)
    (i : Fin RISCV_UINTC_MAX_HARTS) (b size k : Nat) (st : RISCVUintcState) (hb : b ≤ 31)
    (hmem : (Event.irq_raise k, st)
      ∈ riscv_uintc_write_steps host uintc (i.val * 32 + UINTC_SEND) b size) :
    (riscv_uintc_read st (i.val * 32 + UINTC_READ_HIGH) size).1.testBit b = true := by
  have hst := raise_in_final_state host uintc _ b size k st hmem
  have hev : Event.irq_raise k ∈ (riscv_uintc_write host uintc (i.val * 32 + UINTC_SEND) b size).2 := by
    rw [← write_steps_events]
    exact List.mem_map_of_mem Prod.fst hmem
  rw [hst, read_high_eq]
  rw [write_send_eq] at hev ⊢
  by_cases hres : cpu_env host (uintc.uirs i).hartid = false
  · simp [hres] at hev
  · have hres1 : cpu_env host (uintc.uirs i).hartid = true := by simpa using hres
    by_cases hact : (uintc.uirs i).mode.testBit 0 = true
    · by_cases hwide : (uintc.uirs i).mode.testBit 1 = true
      · simp only [hres1, hact, hwide, if_true, if_false, Bool.true_eq_false, set_uirs_same]
        rw [Nat.testBit_lor]
        by_cases h30 : b ≤ 30
        · rw [int_to_uint64_one_shl_low host b h30, Nat.testBit_two_pow_self, Bool.or_true]
        · have h31 : b = 31 := by omega
          subst h31
          rw [int_to_uint64_one_shl_31]
          have hbit : (0xFFFFFFFF80000000 : Nat).testBit 31 = true := by decide
          rw [hbit, Bool.or_true]
      · have hnarrow : (uintc.uirs i).mode.testBit 1 = false := by simpa using hwide
        simp only [hres1, hact, hnarrow, if_true, if_false, Bool.false_eq_true,
          Bool.true_eq_false, set_uirs_same]
        rw [Nat.testBit_mod_two_pow, Nat.testBit_lor, int_to_uint32_one_shl host b hb,
          Nat.testBit_two_pow_self, Bool.or_true, Bool.and_true]
        exact decide_eq_true (by omega)
    · simp [hres, hact] at hev

/-- C17 (the code at the failing input). Slot 0 is active, Wide, targets hart 3 of a
four-hart machine covered by the controller, `pending1 = 0`, and the host takes `int` shift
counts modulo 32. For a write of 32 to SEND, the events in program order, each with the value
a HIGH read of slot 0 would return at that moment, end with the raise of line 3 while HIGH
reads 1: bit 32 is clear at the raise and stays clear. -/
theorem send_wide_bit32_raise_without_bit :
    (uintc_wide_hart3.uirs 0).mode.testBit 0 = true ∧
    (uintc_wide_hart3.uirs 0).mode.testBit 1 = true ∧
    cpu_env (host_harts 4) (uintc_wide_hart3.uirs 0).hartid = true ∧
    (riscv_uintc_write_steps (host_harts 4) uintc_wide_hart3 (0 * 32 + UINTC_SEND) 32 8).map
        (fun p => (p.1, (riscv_uintc_read p.2 (0 * 32 + UINTC_READ_HIGH) 8).1))
      = [(Event.log_write 0 32, 0), (Event.log_ipi 3, 1), (Event.log_flush, 1),
          (Event.irq_raise 3, 1)] ∧
    (1 : Nat).testBit 32 = false ∧
    (riscv_uintc_read
        (riscv_uintc_write (host_harts 4) uintc_wide_hart3 (0 * 32 + UINTC_SEND) 32 8).1
        (0 * 32 + UINTC_READ_HIGH) 8).1.testBit 32 = false := by
  decide

/-! ## C19: slot isolation -/

/-- C19. For every address `a` that passes the range test (`a < 512 << 5 = 16384`): the
decoded index is `a >> 5` and is below 512; a write at `a` of any value leaves every slot
other than slot `a >> 5` unchanged; and the result of a read at `a` is the same in every
two states that agree on slot `a >> 5`. -/
theorem slot_isolation (host : Host) (uintc : RISCVUintcState) (a value size : Nat)
    (h : a < RISCV_UINTC_MAX_HARTS <<< 5) :
    (slot_index a h).val = a >>> 5 ∧
    a >>> 5 < RISCV_UINTC_MAX_HARTS ∧
    (∀ j : Fin RISCV_UINTC_MAX_HARTS, j ≠ slot_index a h →
      (riscv_uintc_write host uintc a value size).1.uirs j = uintc.uirs j) ∧
    (∀ u2 : RISCVUintcState, u2.uirs (slot_index a h) = uintc.uirs (slot_index a h) →
      riscv_uintc_read u2 a size = riscv_uintc_read uintc a size) := by
  refine ⟨slot_index_val a h, ?_, fun j hj => write_other_slot host uintc a value size h j hj,
    fun u2 hu => read_eq_of_slot_eq u2 uintc a size (fun _ => hu)⟩
  rw [← slot_index_val a h]
  exact (slot_index a h).isLt

/-- C19 witness: a send to slot 0 leaves slot 1 alone, and a LOW read of slot 0 gives the
same result in two states that differ in slot 1 only. -/
theorem slot_isolation_witness :
    (0 : Nat) < RISCV_UINTC_MAX_HARTS <<< 5 ∧
    (riscv_uintc_write (host_harts 4) uintc_narrow_hart3 0 5 8).1.uirs 1
      = uintc_narrow_hart3.uirs 1 ∧
    riscv_uintc_read
        (set_uirs uintc_narrow_hart3 1 { mode := 3, hartid := 2, pending0 := 9, pending1 := 9 })
        8 8
      = riscv_uintc_read uintc_narrow_hart3 8 8 :=
  ⟨by decide,
    (slot_isolation (host_harts 4) uintc_narrow_hart3 0 5 8 (by decide)).2.2.1 1 (by decide),
    (slot_isolation (host_harts 4) uintc_narrow_hart3 8 5 8 (by decide)).2.2.2
      (set_uirs uintc_narrow_hart3 1 { mode := 3, hartid := 2, pending0 := 9, pending1 := 9 })
      (by decide)⟩

/-! ## C20: the mode stays a 2-bit value -/

/-- A write keeps `mode < 4` and `hartid < 2 ^ 16` in every slot. -/
theorem write_keeps_mode_hartid_bounds (host : Host) (uintc : RISCVUintcState)
    (a value size : Nat)
    (hinv : ∀ j, (uintc.uirs j).mode < 4 ∧ (uintc.uirs j).hartid < 2 ^ 16)
    (j : Fin RISCV_UINTC_MAX_HARTS) :
    ((riscv_uintc_write host uintc a value size).1.uirs j).mode < 4 ∧
    ((riscv_uintc_write host uintc a value size).1.uirs j).hartid < 2 ^ 16 := by
  by_cases h : a < RISCV_UINTC_MAX_HARTS <<< 5
  · by_cases hj : j = slot_index a h
    · have hm := (hinv (slot_index a h)).1
      have hh := (hinv (slot_index a h)).2
      have hlow : (value &&& 0x3) % 2 ^ 16 < 4 := by
        rw [and_three_mod]
        have h3 := Nat.and_pow_two_sub_one_eq_mod value 2
        simp only [Nat.reducePow, Nat.add_one_sub_one] at h3
        rw [h3]
        omega
      have hid : (value >>> 16) % 2 ^ 16 < 2 ^ 16 := Nat.mod_lt _ (by norm_num)
      have hset : ((uintc.uirs (slot_index a h)).mode ||| 0x1) % 2 ^ 16 < 4 := by
        have h4 := @Nat.or_lt_two_pow (uintc.uirs (slot_index a h)).mode 1 2 hm (by decide)
        omega
      have hclr : ((uintc.uirs (slot_index a h)).mode &&& 0xfffe) % 2 ^ 16 < 4 := by
        have h4 := @Nat.and_le_left (uintc.uirs (slot_index a h)).mode 0xfffe
        omega
      unfold riscv_uintc_write
      rw [dif_pos h, hj]
      dsimp only
      split_ifs <;>
        first
        | exact ⟨hm, hh⟩
        | (rw [set_uirs_same]; exact ⟨hm, hh⟩)
        | (rw [set_uirs_same]; exact ⟨hlow, hid⟩)
        | (rw [set_uirs_same]; exact ⟨hset, hh⟩)
        | (rw [set_uirs_same]; exact ⟨hclr, hh⟩)
    · rw [write_other_slot host uintc a value size h j hj]
      exact hinv j
  · rw [write_out_of_range host uintc a value size h]
    exact hinv j

/-- Every state reached by a sequence of writes from a state with `mode < 4` and
`hartid < 2 ^ 16` in every slot has these bounds in every slot. -/
theorem run_writes_keeps_mode_hartid_bounds (host : Host) (size : Nat)
    (ws : List (Nat × Nat)) (uintc : RISCVUintcState)
    (hinv : ∀ j, (uintc.uirs j).mode < 4 ∧ (uintc.uirs j).hartid < 2 ^ 16)
    (j : Fin RISCV_UINTC_MAX_HARTS) :
    ((run_writes host size uintc ws).1.uirs j).mode < 4 ∧
    ((run_writes host size uintc ws).1.uirs j).hartid < 2 ^ 16 := by
  induction ws generalizing uintc with
  | nil => exact hinv j
  | cons w ws ih =>
    obtain ⟨a, v⟩ := w
    simp only [run_writes]
    exact ih _ (fun j2 => write_keeps_mode_hartid_bounds host uintc a v size hinv j2)

/-- C20. In every state reached from the state built by `riscv_uintc_realize` by a finite
sequence of writes (any addresses, any values), every slot has `mode < 4`; every LOW read
has bits 2-15 and bits 32 and above equal to zero, and every ACTIVE read is 0 or 1. -/
theorem mode_stays_two_bits (host : Host) (hartid_base num_harts size : Nat)
    (ws : List (Nat × Nat)) (j : Fin RISCV_UINTC_MAX_HARTS) :
    ((run_writes host size (riscv_uintc_realize hartid_base num_harts) ws).1.uirs j).mode < 4 ∧
    (∀ k, (2 ≤ k ∧ k < 16) ∨ 32 ≤ k →
      (riscv_uintc_read (run_writes host size (riscv_uintc_realize hartid_base num_harts) ws).1
        (j.val * 32 + UINTC_READ_LOW) size).1.testBit k = false) ∧
    ((riscv_uintc_read (run_writes host size (riscv_uintc_realize hartid_base num_harts) ws).1
        (j.val * 32 + UINTC_GET_ACTIVE) size).1 = 0 ∨
      (riscv_uintc_read (run_writes host size (riscv_uintc_realize hartid_base num_harts) ws).1
        (j.val * 32 + UINTC_GET_ACTIVE) size).1 = 1) := by
  have hinit : ∀ j2, ((riscv_uintc_realize hartid_base num_harts).uirs j2).mode < 4 ∧
      ((riscv_uintc_realize hartid_base num_harts).uirs j2).hartid < 2 ^ 16 := by
    intro j2
    have h0 : (0 : Nat) < 4 := by decide
    have h1 : (0 : Nat) < 2 ^ 16 := by decide
    exact ⟨h0, h1⟩
  have hb := run_writes_keeps_mode_hartid_bounds host size ws
    (riscv_uintc_realize hartid_base num_harts) hinit j
  refine ⟨hb.1, ?_, ?_⟩
  · intro k hk
    rw [read_low_eq]
    simp only [Nat.testBit_lor, Nat.testBit_mod_two_pow, Nat.testBit_shiftLeft]
    have hmode := testBit_false_of_lt _ 2 k hb.1 (by omega)
    rw [hmode, Bool.or_false]
    rcases hk with hk | hk
    · have h16 : ¬ (k ≥ 16) := by omega
      simp [h16]
    · have hid := testBit_false_of_lt _ 16 (k - 16) hb.2 (by omega)
      rw [hid]
      simp
  · rw [read_active_eq, Nat.and_one_is_mod]
    show _ % 2 = 0 ∨ _ % 2 = 1
    omega

/-- C20 witness: after a LOW write of all ones and an ACTIVE write of 7 to slot 0, bit 5 and
bit 40 of the LOW read of slot 0 are zero. -/
theorem mode_stays_two_bits_witness :
    (((2 ≤ 5 ∧ 5 < 16) ∨ 32 ≤ 5) ∧ ((2 ≤ 40 ∧ 40 < 16) ∨ 32 ≤ 40)) ∧
    (riscv_uintc_read
        (run_writes (host_harts 4) 8 (riscv_uintc_realize 0 4)
          [(8, 0xFFFFFFFFFFFFFFFF), (0x18, 7)]).1
        ((0 : Fin 512).val * 32 + UINTC_READ_LOW) 8).1.testBit 5 = false ∧
    (riscv_uintc_read
        (run_writes (host_harts 4) 8 (riscv_uintc_realize 0 4)
          [(8, 0xFFFFFFFFFFFFFFFF), (0x18, 7)]).1
        ((0 : Fin 512).val * 32 + UINTC_READ_LOW) 8).1.testBit 40 = false :=
  have h := mode_stays_two_bits (host_harts 4) 0 4 8 [(8, 0xFFFFFFFFFFFFFFFF), (0x18, 7)] 0
  ⟨by decide, h.2.1 5 (by decide), h.2.1 40 (by decide)⟩

end Uintc
